import Mathlib

/-!
# Verification of the streaming SQL-intercepting agent proxy (`backend/server.js`)

This file is a shallow embedding of the Express backend's streaming-proxy
pipeline (`POST /api/agent/run` and `POST /api/statements` in
`backend/server.js`) together with its helper functions
(`shouldSkipEvent`, `extractSQLFromPayload`, `executeSQL`, `getSQLResults`,
`streamData2Analytics`, `createSSEWriter`).

Modelling conventions:

* JavaScript JSON values are modelled by the inductive type `Json`.
  Property access `x?.k` is `Json.get?`, array indexing `x?.[i]` is
  `Json.idx?`, and JS truthiness is `Json.truthy`.
* An upstream SSE event is `⟨eventName, data⟩`.  The `data` string is
  bucketed by what `event.data === '[DONE]'` and
  `JSON.parse(event.data || '{}')` do with it: the exact sentinel string,
  a string that parses to some JSON value, a non-empty string that is not
  valid JSON, or an empty/absent data string (which the code parses as
  `'{}'`, i.e. the empty object).
* `JSON.parse` of a raw string that fails yields the string itself as a JS
  value, so decoded payloads are again `Json` (`Json.str` for the raw case).
* The external world (warehouse statement submission, the secondary
  data-to-analytics agent stream) is an oracle `Env`; remote-call failures
  (network error or a non-JSON response body) are `none` results and are
  raised to the handler's `catch` block, which mirrors the
  `res.headersSent` distinction of the source.  Exception message strings
  are abstracted to the code's fallback `'Agent proxy failed'`.
* JS run-time type errors that the source can actually hit
  (`forEach` on a truthy non-array `delta.content`, `.at` on a
  non-array/non-string `statementHandles`) are modelled as crashes that
  reach the same `catch` block.
* `Json.idx?` returns `none` on strings whereas JS indexes into the
  characters; at both use sites (`content?.[1]`, `content?.[0]`) the result
  is immediately fed into a property lookup that yields `undefined` for a
  one-character string as well, so the composite paths agree with JS.
-/

/-- A JavaScript JSON value (`null`, booleans, numbers, strings, arrays,
objects).  Numbers are modelled as integers; no claim depends on
non-integral numerics. -/
inductive Json where
  | null : Json
  | bool : Bool → Json
  | num : Int → Json
  | str : String → Json
  | arr : List Json → Json
  | obj : List (String × Json) → Json
deriving Inhabited

namespace Json

/-- JS property access `v?.k`: `undefined` (`none`) unless `v` is an object
with field `k`; for objects the first binding wins (parsed JSON objects
have unique keys). -/
def get? : Json → String → Option Json
  | .obj fields, k => fields.lookup k
  | _, _ => none

/-- JS array indexing `v?.[i]`: `undefined` (`none`) unless `v` is an array
with an element at `i`.  (See the header note about strings.) -/
def idx? : Json → Nat → Option Json
  | .arr l, i => l.get? i
  | _, _ => none

/-- JS truthiness of a JSON value. -/
def truthy : Json → Bool
  | .null => false
  | .bool b => b
  | .num n => n != 0
  | .str s => s != ""
  | .arr _ => true
  | .obj _ => true

mutual

/-- JS string coercion as used in template literals and `+` with a string:
primitives print themselves, arrays join their elements with `,`
(`null` printing empty), objects print `[object Object]`. -/
def jsString : Json → String
  | .null => "null"
  | .bool b => if b then "true" else "false"
  | .num n => toString n
  | .str s => s
  | .arr l => String.intercalate "," (jsStringList l)
  | .obj _ => "[object Object]"

/-- Elementwise JS string coercion inside `Array.prototype.toString`
(`null` elements print empty). -/
def jsStringList : List Json → List String
  | [] => []
  | .null :: rest => "" :: jsStringList rest
  | j :: rest => jsString j :: jsStringList rest

end

end Json

/-- The `data` field of one upstream SSE event, bucketed by how
`server.js` consumes the string (see the header). -/
inductive EventData where
  | done : EventData
  | json : Json → EventData
  | raw : String → EventData
  | empty : EventData
deriving Inhabited

/-- One upstream SSE event as yielded by `fetch-event-stream`'s `events`:
an optional event name and a data string. -/
structure SSEEvent where
  event : Option String
  data : EventData
deriving Inhabited

/-- `JSON.parse(event.data || '{}')` with the `catch` fallback to the raw
string: a JSON data string decodes to its value, a non-JSON string stays a
JS string, an empty/absent data string parses as the empty object. -/
def decodeData : EventData → Json
  | .json j => j
  | .raw s => .str s
  | .empty => .obj []
  | .done => .str "[DONE]"

/-- What one `data:` line of an outbound SSE frame carries:
the raw terminal sentinel `[DONE]`, or `JSON.stringify` of a JS value. -/
inductive OutData where
  | sentinel : OutData
  | json : Json → OutData
deriving Inhabited

/-- One outbound SSE frame: the optional `event:` name and the data. -/
structure Frame where
  name : Option String
  data : OutData
deriving Inhabited

/-- `createSSEWriter`'s writer: `dataObj === '[DONE]'` (a JS string
comparison, so it also fires for a payload that *is* the string
`"[DONE]"`) writes the raw sentinel, anything else is JSON-stringified. -/
def writeSSE (name : Option String) (v : Json) : Frame :=
  match v with
  | .str s => if s = "[DONE]" then ⟨name, .sentinel⟩ else ⟨name, .json (.str s)⟩
  | _ => ⟨name, .json v⟩

/-- `payload?.delta?.content` is exactly the empty array (the only case in
which `shouldSkipEvent`'s second test fires: `[]` is truthy,
`Array.isArray` holds, length is `0`). -/
def hasEmptyContent (payload : Json) : Bool :=
  match (payload.get? "delta").bind (·.get? "content") with
  | some (.arr []) => true
  | _ => false

/-- `shouldSkipEvent(event, payload)` from `server.js`. -/
def shouldSkipEvent (e : SSEEvent) (payload : Json) : Bool :=
  if e.event = some "execution_trace" then true
  else hasEmptyContent payload

/-- `extractSQLFromPayload(payload)`:
`payload?.delta?.content?.[1]?.tool_results?.content?.[0]?.json`. -/
def extractSQLFromPayload (payload : Json) : Option Json :=
  ((((((payload.get? "delta").bind (·.get? "content")).bind
    (·.idx? 1)).bind (·.get? "tool_results")).bind
    (·.get? "content")).bind (·.idx? 0)).bind (·.get? "json")

/-- The detected SQL value: `extractSQLFromPayload(payload)?.sql`. -/
def sqlOf (payload : Json) : Option Json :=
  (extractSQLFromPayload payload).bind (·.get? "sql")

/-- The `if (sql)` trigger test: the extracted `sql` value exists and is
truthy. -/
def isTrigger (payload : Json) : Bool :=
  match sqlOf payload with
  | some v => v.truthy
  | none => false

/-- The content-item filter of the accumulation loop: push unless
`contentItem?.tool_use?.name !== 'sql_exec'` fails, i.e. keep every item
whose `tool_use.name` is not the string `sql_exec`. -/
def keepContentItem (item : Json) : Bool :=
  match (item.get? "tool_use").bind (·.get? "name") with
  | some (.str s) => s != "sql_exec"
  | _ => true

/-- The assistant-content accumulation step (`server.js` lines 267-273):
if `payload?.delta?.content` is truthy, `forEach` over it pushes every
kept item in order; `forEach` on a truthy non-array value throws a
`TypeError` (modelled as `Except.error`). -/
def accumulateItems (payload : Json) : Except Unit (List Json) :=
  match (payload.get? "delta").bind (·.get? "content") with
  | none => .ok []
  | some c =>
    if c.truthy then
      match c with
      | .arr l => .ok (l.filter keepContentItem)
      | _ => .error ()
    else .ok []

/-- Update the first binding of key `k` in an object's field list (JS
property assignment on an object with unique keys; lookup takes the first
binding, so only the first is updated). -/
def modifyField (k : String) (f : Json → Json) : List (String × Json) → List (String × Json)
  | [] => []
  | (k', v) :: rest =>
    if k' = k then (k', f v) :: rest else (k', v) :: modifyField k f rest

/-- JS property update `o.k = f(o.k)` as a functional update; a no-op on
non-objects (the redaction guard guarantees the object exists before the
assignment runs). -/
def Json.modifyKey (k : String) (f : Json → Json) : Json → Json
  | .obj fields => .obj (modifyField k f fields)
  | j => j

/-- Update the `i`-th element of a list, if present. -/
def modifyNth (f : Json → Json) : Nat → List Json → List Json
  | _, [] => []
  | 0, x :: xs => f x :: xs
  | n + 1, x :: xs => x :: modifyNth f n xs

/-- JS element update `a[i] = f(a[i])` as a functional update; a no-op on
non-arrays. -/
def Json.modifyIdx (i : Nat) (f : Json → Json) : Json → Json
  | .arr l => .arr (modifyNth f i l)
  | j => j

/-- The assignment
`payload.delta.content[1].tool_results.content[0].json.sql = v` as a
functional update along the fixed structural path. -/
def setSqlField (v : Json) (payload : Json) : Json :=
  payload.modifyKey "delta" (·.modifyKey "content" (·.modifyIdx 1 (·.modifyKey "tool_results"
    (·.modifyKey "content" (·.modifyIdx 0 (·.modifyKey "json"
      (·.modifyKey "sql" fun _ => v)))))))

/-- The guarded redaction step (`server.js` line 302) as a pure function:
when the optional-chain guard `payload?.delta?.content?.[1]?.tool_results
?.content?.[0]?.json?.sql` is truthy, the field is set to the literal
string `REDACTED`; otherwise the payload is left untouched.  The handler
never forwards the redacted payload, but the in-place assignment mutates
the content item that line 270 pushed (by reference) into
`assistantMessageContent`, so after an interception the accumulator holds
the redacted item (see `redactedItems`). -/
def redactPayload (payload : Json) : Json :=
  match sqlOf payload with
  | some v => if v.truthy then setSqlField (.str "REDACTED") payload else payload
  | none => payload


/-- The `delta.content` array of a payload (`[]` when absent or not an
array); on every SQL-triggering payload this is the array whose element 1
holds the `tool_results` item. -/
def contentListOf (p : Json) : List Json :=
  match (p.get? "delta").bind (·.get? "content") with
  | some (.arr l) => l
  | _ => []

/-- The effect of the line-302 assignment on the triggering content item
itself (`item.tool_results.content[0].json.sql = 'REDACTED'`). -/
def redactToolResultsItem : Json → Json :=
  fun item => item.modifyKey "tool_results" (·.modifyKey "content" (·.modifyIdx 0
    (·.modifyKey "json" (·.modifyKey "sql" fun _ => .str "REDACTED"))))

/-- What the accumulated items of a SQL-triggering payload look like after
the line-302 mutation: the pushed content items are *references* into
`payload.delta.content`, so redacting `content[1]` in place also redacts
the copy the accumulator holds.  (The first secondary request is
serialized before the mutation and still carries the original SQL.) -/
def redactedItems (p : Json) : List Json :=
  (modifyNth redactToolResultsItem 1 (contentListOf p)).filter keepContentItem

/-- The statement value submitted by `executeSQL`:
`username ? `SET TENANT = '${username}' ->> ${sql}` : sql`.  With a tenant
the template literal coerces the SQL value to a string; with no tenant the
raw JS value is used as the `statement` field unchanged. -/
def submittedStatement (username : String) (sql : Json) : Json :=
  if username ≠ "" then
    .str ("SET TENANT = '" ++ username ++ "' ->> " ++ sql.jsString)
  else sql

/-- `stmtJson.statementHandles?.at(-1)` — `undefined` (`none`) when the
field is absent, `null`, an empty array or an empty string; the last
element of a non-empty array; the last character of a non-empty string;
a `TypeError` on any other value (`.at` is not a function there). -/
def atLastChain : Option Json → Except Unit (Option Json)
  | none => .ok none
  | some .null => .ok none
  | some (.arr l) => .ok l.getLast?
  | some (.str s) =>
    match s.toList.getLast? with
    | some c => .ok (some (.str (String.mk [c])))
    | none => .ok none
  | some _ => .error ()

/-- `stmtJson.statementHandles?.at(-1) || stmtJson.statementHandle`:
the last handle when truthy, otherwise (falsy or `undefined`) the single
`statementHandle` field, which may itself be absent. -/
def selectHandle (stmtJson : Json) : Except Unit (Option Json) :=
  (atLastChain (stmtJson.get? "statementHandles")).map fun lastH =>
    match lastH with
    | some j => if j.truthy then some j else stmtJson.get? "statementHandle"
    | none => stmtJson.get? "statementHandle"

/-- `createAgentRequestBody(messages)`: the cloned agent-model
configuration spread first, then the `messages` field (object spread lets
the later `messages` key win, hence the filter under first-key-wins
lookup semantics). -/
def createAgentRequestBody (config : List (String × Json)) (messages : List Json) : Json :=
  .obj ((config.filter fun kv => kv.1 ≠ "messages") ++ [("messages", .arr messages)])

/-- The synthetic `tool_results` user message of `streamData2Analytics`;
`{ query_id: statementHandle }` drops the field under `JSON.stringify`
when the handle is `undefined`. -/
def sqlExecMessage (handle : Option Json) : Json :=
  .obj [("role", .str "user"),
        ("content", .arr [
          .obj [("type", .str "tool_results"),
                ("tool_results", .obj [
                  ("name", .str "sql_exec"),
                  ("content", .arr [
                    .obj [("type", .str "json"),
                          ("json", .obj (match handle with
                            | some h => [("query_id", h)]
                            | none => []))]])])]])]

/-- The assistant message `{ role: 'assistant', content }` built from the
accumulated assistant content. -/
def assistantMessage (content : List Json) : Json :=
  .obj [("role", .str "assistant"), ("content", .arr content)]

/-- The request body of the secondary (data-to-analytics) agent call:
`createAgentRequestBody([...messages, assistantMessage, sqlExecMessage])`. -/
def d2aRequestBody (config : List (String × Json)) (messages : List Json)
    (acc : List Json) (handle : Option Json) : Json :=
  createAgentRequestBody config (messages ++ [assistantMessage acc, sqlExecMessage handle])

/-- The event loop of `streamData2Analytics`: break on the `[DONE]` data
sentinel, skip `execution_trace` events, decode, skip empty-content
payloads, otherwise forward through the shared SSE writer. -/
def runD2aEvents : List SSEEvent → List Frame
  | [] => []
  | e :: rest =>
    match e.data with
    | .done => []
    | d =>
      if e.event = some "execution_trace" then runD2aEvents rest
      else
        let p := decodeData d
        if hasEmptyContent p then runD2aEvents rest
        else writeSSE e.event p :: runD2aEvents rest

/-- The synthesized `message.delta` payload carrying the analyst text
(`toolResultJson.text + '\n\n---\n\n'` string-coerces the text value). -/
def synthTextDelta (t : Json) : Json :=
  .obj [("id", .str "msg_000"),
        ("object", .str "message.delta"),
        ("delta", .obj [("content", .arr [
          .obj [("type", .str "text"),
                ("text", .str (t.jsString ++ "\n\n---\n\n"))]])])]

/-- The frames written by the `if (toolResultJson?.text)` step: one
synthetic `message.delta` when the text value is present and truthy. -/
def textFramesOf (toolResultJson : Json) : List Frame :=
  match toolResultJson.get? "text" with
  | some t => if t.truthy then [writeSSE (some "message.delta") (synthTextDelta t)] else []
  | none => []

/-- The `new_assistant_message` marker payload. -/
def newAssistantMarker : Json :=
  .obj [("message", .str "Starting data-to-analytics")]

/-- The external collaborators of one `/api/agent/run` request: the loaded
agent-model configuration, the warehouse statement endpoints and the
secondary agent stream.  A `none` response models a remote call that fails
(network error or a response body that is not JSON) and throws into the
handler's `catch`. -/
structure Env where
  config : List (String × Json)
  submitResp : Json → Option Json
  fetchResp : Json → Option Json
  d2a : Json → Option (List SSEEvent)

/-- One outbound remote call of the backend, in the order issued. -/
inductive Call where
  | agentRunPrimary (body : Json)
  | submit (statement : Json)
  | statementsGet (handle : Json)
  | agentRunD2a (body : Json)

/-- `executeSQL(snowflakeUrl, authToken, sql, username)`: wrap the SQL with
the tenant directive and POST it to `/api/v2/statements`, returning the
parsed response. -/
def executeSQL (env : Env) (username : String) (sql : Json) : Option Json × List Call :=
  let stmt := submittedStatement username sql
  (env.submitResp stmt, [.submit stmt])

/-- `getSQLResults(snowflakeUrl, authToken, statementHandle)`: GET
`/api/v2/statements/{handle}`.  Defined in `server.js` but not invoked by
either route handler. -/
def getSQLResults (env : Env) (handle : Json) : Option Json × List Call :=
  (env.fetchResp handle, [.statementsGet handle])

/-- `streamData2Analytics`: build the follow-up body, open the secondary
agent stream and relay its events through the shared writer. -/
def streamData2Analytics (env : Env) (messages acc : List Json) (handle : Option Json) :
    Option (List Frame) × List Call :=
  let body := d2aRequestBody env.config messages acc handle
  ((env.d2a body).map runD2aEvents, [.agentRunD2a body])

/-- The mutable per-request state of the primary loop: the `sqlDetected`
flag and the `assistantMessageContent` array. -/
structure LoopSt where
  sqlDetected : Bool
  acc : List Json

/-- How the primary loop ended: `break` at the `[DONE]` sentinel, the
upstream iterator ending without the sentinel, or an exception thrown into
the surrounding `catch`. -/
inductive RunEnd where
  | doneBreak : RunEnd
  | streamEnd : RunEnd
  | crashed : RunEnd
deriving DecidableEq

/-- Everything the primary loop produced: frames written so far, remote
calls issued, the final loop state, and how it ended. -/
structure RunOut where
  frames : List Frame
  calls : List Call
  st : LoopSt
  ending : RunEnd

/-- The primary event loop of `POST /api/agent/run` (`server.js` lines
255-307): `[DONE]` break (writing `done` only when no SQL was detected),
decode, `shouldSkipEvent`, accumulate assistant content, then either the
SQL-interception block (analyst text, `executeSQL`, handle selection,
`table_result`, `new_assistant_message`, `streamData2Analytics`, then the
line-302 in-place redaction — which, through the references pushed at
line 270, rewrites this event's accumulated items to `redactedItems`,
after the secondary request body was already serialized with the original
SQL) or the verbatim forward.  The redacted payload itself is never
written to the client. -/
def processEvents (env : Env) (messages : List Json) (username : String) :
    List SSEEvent → LoopSt → RunOut
  | [], st => ⟨[], [], st, .streamEnd⟩
  | e :: rest, st =>
    match e.data with
    | .done =>
      ⟨if !st.sqlDetected then [writeSSE (some "done") (.str "[DONE]")] else [],
       [], st, .doneBreak⟩
    | d =>
      let p := decodeData d
      if shouldSkipEvent e p then processEvents env messages username rest st
      else
        match accumulateItems p with
        | .error _ => ⟨[], [], st, .crashed⟩
        | .ok items =>
          let st1 : LoopSt := ⟨st.sqlDetected, st.acc ++ items⟩
          if isTrigger p then
            let sqlv := (sqlOf p).getD .null
            let trj := (extractSQLFromPayload p).getD .null
            let st2 : LoopSt := ⟨true, st1.acc⟩
            let tf := textFramesOf trj
            let stmt := submittedStatement username sqlv
            match env.submitResp stmt with
            | none => ⟨tf, [.submit stmt], st2, .crashed⟩
            | some stmtJson =>
              match selectHandle stmtJson with
              | .error _ => ⟨tf, [.submit stmt], st2, .crashed⟩
              | .ok handle =>
                let blockFrames := tf ++ [writeSSE (some "table_result") stmtJson,
                  writeSSE (some "new_assistant_message") newAssistantMarker]
                let body := d2aRequestBody env.config messages st2.acc handle
                match env.d2a body with
                | none => ⟨blockFrames, [.submit stmt, .agentRunD2a body], st2, .crashed⟩
                | some evs =>
                  let stR : LoopSt := ⟨true, st.acc ++ redactedItems p⟩
                  let r := processEvents env messages username rest stR
                  ⟨blockFrames ++ runD2aEvents evs ++ r.frames,
                   .submit stmt :: .agentRunD2a body :: r.calls, r.st, r.ending⟩
          else
            let r := processEvents env messages username rest st1
            ⟨writeSSE e.event p :: r.frames, r.calls, r.st, r.ending⟩

/-- The primary upstream SSE connection: the HTTP status of the upstream
response, the events its iterator yields, and whether the iterator throws
after yielding them (a dropped connection) instead of ending cleanly. -/
structure PrimaryConn where
  status : Nat
  events : List SSEEvent
  failsAtEnd : Bool

/-- The client-visible outcome of a request: a plain (non-stream) JSON
response, or an SSE response carrying the written frames. -/
inductive HttpOut where
  | plain (status : Nat) (body : Json)
  | sse (status : Nat) (frames : List Frame)

/-- `{ error: e?.message || 'Agent proxy failed' }` with the message
abstracted to the fallback (see the header). -/
def errorBody : Json := .obj [("error", .str "Agent proxy failed")]

/-- The in-band `error` frame written by the `catch` block once the stream
has started. -/
def errorFrame : Frame := writeSSE (some "error") errorBody

/-- The terminal `done` frame `writeSSE('done', '[DONE]')`. -/
def doneFrame : Frame := writeSSE (some "done") (.str "[DONE]")

/-- The loop state at entry: `sqlDetected = false`, empty accumulator. -/
def initSt : LoopSt := ⟨false, []⟩

/-- The `POST /api/agent/run` handler: configuration check, `messages`
array check, primary upstream call, the event loop, the final conditional
`done`, and the `catch` block's `res.headersSent` split (nothing written
yet ⇒ plain `500`; otherwise one in-band `error` frame, then close). -/
def agentRunHandler (env : Env) (snowflakeUrl : Option String) (messages : Option Json)
    (username : String) (conn : Option PrimaryConn) : HttpOut × List Call :=
  match snowflakeUrl with
  | none => (.plain 500 (.obj [("error", .str "Missing SNOWFLAKE_URL")]), [])
  | some _ =>
    match messages with
    | some (.arr msgs) =>
      let body := createAgentRequestBody env.config msgs
      match conn with
      | none => (.plain 500 errorBody, [.agentRunPrimary body])
      | some c =>
        let r := processEvents env msgs username c.events initSt
        match r.ending with
        | .doneBreak =>
          (.sse c.status (r.frames ++ if r.st.sqlDetected then [doneFrame] else []),
           .agentRunPrimary body :: r.calls)
        | .streamEnd =>
          if c.failsAtEnd then
            if r.frames.isEmpty then (.plain 500 errorBody, .agentRunPrimary body :: r.calls)
            else (.sse c.status (r.frames ++ [errorFrame]), .agentRunPrimary body :: r.calls)
          else
            (.sse c.status (r.frames ++ if r.st.sqlDetected then [doneFrame] else []),
             .agentRunPrimary body :: r.calls)
        | .crashed =>
          if r.frames.isEmpty then (.plain 500 errorBody, .agentRunPrimary body :: r.calls)
          else (.sse c.status (r.frames ++ [errorFrame]), .agentRunPrimary body :: r.calls)
    | _ => (.plain 400 (.obj [("error", .str "messages required")]), [])

/-- The warehouse as seen by `POST /api/statements`: the relayed status
and body of the submission response, `none` for a network failure. -/
structure StmtEnv where
  resp : String → Option (Nat × Json)

/-- JS `String.prototype.trim`: strip leading and trailing whitespace
(executable structural model of the library function). -/
def trimString (s : String) : String :=
  String.mk (((s.toList.dropWhile Char.isWhitespace).reverse.dropWhile
    Char.isWhitespace).reverse)

/-- The `POST /api/statements` handler: configuration check, the
`typeof statement !== 'string' || !statement.trim()` validation, then the
direct proxy of the submission response. -/
def statementsHandler (env : StmtEnv) (snowflakeUrl : Option String)
    (statement : Option Json) : HttpOut × List Call :=
  match snowflakeUrl with
  | none => (.plain 500 (.obj [("error", .str "Missing SNOWFLAKE_URL")]), [])
  | some _ =>
    match statement with
    | some (.str s) =>
      if trimString s = "" then (.plain 400 (.obj [("error", .str "statement required")]), [])
      else
        match env.resp s with
        | none => (.plain 500 (.obj [("error", .str "Statements proxy failed")]), [.submit (.str s)])
        | some (st, respBody) => (.plain st respBody, [.submit (.str s)])
    | _ => (.plain 400 (.obj [("error", .str "statement required")]), [])

/-- Specification function: the forwarded-frame sequence of a stream under
the shared drop rules — stop at the `[DONE]` sentinel, drop
`execution_trace` events and empty-content payloads, forward everything
else in order. -/
def forwardSpec : List SSEEvent → List Frame
  | [] => []
  | e :: rest =>
    match e.data with
    | .done => []
    | d =>
      let p := decodeData d
      if shouldSkipEvent e p then forwardSpec rest
      else writeSSE e.event p :: forwardSpec rest

/-- Specification function: the assistant-content items accumulated from a
stream prefix (up to the `[DONE]` sentinel), skipping dropped events and
taking the kept items of every other event in order; for a SQL-triggering
event the items appear in their post-mutation (`redactedItems`) form,
since the line-302 assignment rewrites the accumulated references. -/
def accumSpec : List SSEEvent → List Json
  | [] => []
  | e :: rest =>
    match e.data with
    | .done => []
    | d =>
      let p := decodeData d
      if shouldSkipEvent e p then accumSpec rest
      else
        (if isTrigger p then redactedItems p
         else (accumulateItems p).toOption.getD []) ++ accumSpec rest

/-- Whether a stream contains the `[DONE]` sentinel event. -/
def containsDone (evs : List SSEEvent) : Bool :=
  evs.any fun e => match e.data with | .done => true | _ => false

/-- A terminal-class outbound frame: a raw `[DONE]` sentinel data line
(the `done` write) or a frame named `error`. -/
def isTerminalFrame (f : Frame) : Bool :=
  (match f.data with | .sentinel => true | _ => false) || f.name = some "error"

/-- The number of terminal-class frames of a response (`0` for a plain
JSON response, which carries no SSE stream). -/
def terminalCount : HttpOut → Nat
  | .plain _ _ => 0
  | .sse _ frames => (frames.filter isTerminalFrame).length

/-- A JS value that the shared writer would serialize as a raw sentinel
line: exactly the string `"[DONE]"`. -/
def spoofValue (v : Json) : Bool :=
  match v with
  | .str s => s == "[DONE]"
  | _ => false

/-- An event that cannot spoof a terminal frame: it is not named `error`
and its decoded payload is not the JS string `"[DONE]"`. -/
def noSpoof (e : SSEEvent) : Bool :=
  e.event ≠ some "error" &&
    (match e.data with
     | .done => true
     | d => !spoofValue (decodeData d))

/-- A payload whose embedded `sql` field (at the interception path) is
truthy, i.e. carries detectable un-redacted SQL. -/
def carriesLiveSql (j : Json) : Bool := isTrigger j

/-- The frames of the interception block emitted in place of a triggering
event (before the secondary stream's frames): optional analyst text, the
`table_result` frame carrying the submission response, and the
`new_assistant_message` marker. -/
def interceptBlock (trj stmtJson : Json) : List Frame :=
  textFramesOf trj ++ [writeSSE (some "table_result") stmtJson,
    writeSSE (some "new_assistant_message") newAssistantMarker]

/-- Whether an event's data is the `[DONE]` sentinel. -/
def isDoneEv (e : SSEEvent) : Bool :=
  match e.data with
  | .done => true
  | _ => false

/-- The accumulation step succeeds on this event's decoded payload
(no `forEach` TypeError). -/
def accumOk (e : SSEEvent) : Bool :=
  match accumulateItems (decodeData e.data) with
  | .ok _ => true
  | .error _ => false

/-- A tame event: it does not trigger SQL interception and its
accumulation step does not crash. -/
def tameEv (e : SSEEvent) : Bool :=
  !isTrigger (decodeData e.data) && accumOk e

theorem containsDone_cons (e : SSEEvent) (rest : List SSEEvent) :
    containsDone (e :: rest) = (isDoneEv e || containsDone rest) := by
  simp only [containsDone, List.any_cons, isDoneEv]

/-- The secondary-stream loop applies exactly the shared drop rules: it is
extensionally the same filter-and-forward specification as the primary
loop's drop path (the two differ only in the order of the
`execution_trace` check relative to decoding). -/
theorem runD2aEvents_eq_forwardSpec : ∀ evs, runD2aEvents evs = forwardSpec evs := by
  intro evs
  induction evs with
  | nil => rfl
  | cons e rest ih =>
    obtain ⟨name, data⟩ := e
    cases data with
    | done => rfl
    | json j =>
      by_cases h1 : name = some "execution_trace" <;>
        by_cases h2 : hasEmptyContent (decodeData (.json j)) = true <;>
          simp [runD2aEvents, forwardSpec, shouldSkipEvent, h1, h2, ih]
    | raw s =>
      by_cases h1 : name = some "execution_trace" <;>
        by_cases h2 : hasEmptyContent (decodeData (.raw s)) = true <;>
          simp [runD2aEvents, forwardSpec, shouldSkipEvent, h1, h2, ih]
    | empty =>
      by_cases h1 : name = some "execution_trace" <;>
        by_cases h2 : hasEmptyContent (decodeData .empty) = true <;>
          simp [runD2aEvents, forwardSpec, shouldSkipEvent, h1, h2, ih]

/-- On a stream of tame events the primary loop is exactly the
filter-and-forward specification: no remote calls, the in-order forwarded
frames (plus the in-loop `done` frame when the sentinel is reached with no
SQL detected), the accumulated assistant content, and the corresponding
ending. -/
theorem processEvents_tame (env : Env) (m : List Json) (u : String) :
    ∀ (evs : List SSEEvent) (st : LoopSt), (∀ e ∈ evs, tameEv e = true) →
    processEvents env m u evs st =
      ⟨forwardSpec evs ++ (if containsDone evs && !st.sqlDetected then [doneFrame] else []),
       [], ⟨st.sqlDetected, st.acc ++ accumSpec evs⟩,
       if containsDone evs then .doneBreak else .streamEnd⟩ := by
  intro evs
  induction evs with
  | nil =>
    intro st _
    simp [processEvents, forwardSpec, accumSpec, containsDone]
  | cons e rest ih =>
    intro st h
    have he : tameEv e = true := h e (by simp)
    have hrest : ∀ x ∈ rest, tameEv x = true := fun x hx => h x (by simp [hx])
    obtain ⟨name, data⟩ := e
    have hacc : ∃ l, accumulateItems (decodeData data) = .ok l := by
      have := he
      simp only [tameEv, accumOk, Bool.and_eq_true] at this
      rcases this with ⟨-, h2⟩
      cases hA : accumulateItems (decodeData data) with
      | ok l => exact ⟨l, rfl⟩
      | error u => rw [hA] at h2; simp at h2
    have htrig : isTrigger (decodeData data) = false := by
      have := he
      simp only [tameEv, Bool.and_eq_true] at this
      rcases this with ⟨h1, -⟩
      simpa using h1
    obtain ⟨l, hl⟩ := hacc
    cases data with
    | done =>
      simp [processEvents, forwardSpec, accumSpec, containsDone_cons, isDoneEv, doneFrame]
    | json j =>
      by_cases hskip : shouldSkipEvent ⟨name, .json j⟩ (decodeData (.json j)) = true
      · simp [processEvents, hskip, forwardSpec, accumSpec, containsDone_cons, isDoneEv,
          ih _ hrest]
      · simp only [Bool.not_eq_true] at hskip
        simp [processEvents, hskip, hl, htrig, forwardSpec, accumSpec, containsDone_cons,
          isDoneEv, ih _ hrest, List.append_assoc, Except.toOption]
    | raw s =>
      by_cases hskip : shouldSkipEvent ⟨name, .raw s⟩ (decodeData (.raw s)) = true
      · simp [processEvents, hskip, forwardSpec, accumSpec, containsDone_cons, isDoneEv,
          ih _ hrest]
      · simp only [Bool.not_eq_true] at hskip
        simp [processEvents, hskip, hl, htrig, forwardSpec, accumSpec, containsDone_cons,
          isDoneEv, ih _ hrest, List.append_assoc, Except.toOption]
    | empty =>
      by_cases hskip : shouldSkipEvent ⟨name, .empty⟩ (decodeData .empty) = true
      · simp [processEvents, hskip, forwardSpec, accumSpec, containsDone_cons, isDoneEv,
          ih _ hrest]
      · simp only [Bool.not_eq_true] at hskip
        simp [processEvents, hskip, hl, htrig, forwardSpec, accumSpec, containsDone_cons,
          isDoneEv, ih _ hrest, List.append_assoc, Except.toOption]

/-- Processing a tame, sentinel-free prefix followed by anything: the
prefix contributes its forwarded frames and accumulated content, and the
loop continues on the remainder. -/
theorem processEvents_append_tame (env : Env) (m : List Json) (u : String) :
    ∀ (pre evs2 : List SSEEvent) (st : LoopSt),
    (∀ e ∈ pre, tameEv e = true) → containsDone pre = false →
    processEvents env m u (pre ++ evs2) st =
      ⟨forwardSpec pre ++
         (processEvents env m u evs2 ⟨st.sqlDetected, st.acc ++ accumSpec pre⟩).frames,
       (processEvents env m u evs2 ⟨st.sqlDetected, st.acc ++ accumSpec pre⟩).calls,
       (processEvents env m u evs2 ⟨st.sqlDetected, st.acc ++ accumSpec pre⟩).st,
       (processEvents env m u evs2 ⟨st.sqlDetected, st.acc ++ accumSpec pre⟩).ending⟩ := by
  intro pre
  induction pre with
  | nil =>
    intro evs2 st _ _
    simp [forwardSpec, accumSpec]
  | cons e rest ih =>
    intro evs2 st h hnd
    have he : tameEv e = true := h e (by simp)
    have hrest : ∀ x ∈ rest, tameEv x = true := fun x hx => h x (by simp [hx])
    rw [containsDone_cons, Bool.or_eq_false_iff] at hnd
    obtain ⟨hnd1, hnd2⟩ := hnd
    obtain ⟨name, data⟩ := e
    have hacc : ∃ l, accumulateItems (decodeData data) = .ok l := by
      have := he
      simp only [tameEv, accumOk, Bool.and_eq_true] at this
      rcases this with ⟨-, h2⟩
      cases hA : accumulateItems (decodeData data) with
      | ok l => exact ⟨l, rfl⟩
      | error u => rw [hA] at h2; simp at h2
    have htrig : isTrigger (decodeData data) = false := by
      have := he
      simp only [tameEv, Bool.and_eq_true] at this
      rcases this with ⟨h1, -⟩
      simpa using h1
    obtain ⟨l, hl⟩ := hacc
    cases data with
    | done => simp [isDoneEv] at hnd1
    | json j =>
      by_cases hskip : shouldSkipEvent ⟨name, .json j⟩ (decodeData (.json j)) = true
      · simp [processEvents, hskip, forwardSpec, accumSpec, ih _ _ hrest hnd2]
      · simp only [Bool.not_eq_true] at hskip
        simp [processEvents, hskip, hl, htrig, forwardSpec, accumSpec,
          ih _ _ hrest hnd2, List.append_assoc, Except.toOption]
    | raw s =>
      by_cases hskip : shouldSkipEvent ⟨name, .raw s⟩ (decodeData (.raw s)) = true
      · simp [processEvents, hskip, forwardSpec, accumSpec, ih _ _ hrest hnd2]
      · simp only [Bool.not_eq_true] at hskip
        simp [processEvents, hskip, hl, htrig, forwardSpec, accumSpec,
          ih _ _ hrest hnd2, List.append_assoc, Except.toOption]
    | empty =>
      by_cases hskip : shouldSkipEvent ⟨name, .empty⟩ (decodeData .empty) = true
      · simp [processEvents, hskip, forwardSpec, accumSpec, ih _ _ hrest hnd2]
      · simp only [Bool.not_eq_true] at hskip
        simp [processEvents, hskip, hl, htrig, forwardSpec, accumSpec,
          ih _ _ hrest hnd2, List.append_assoc, Except.toOption]

/-- One successful interception step: a non-skipped JSON event whose
payload carries truthy SQL contributes the interception block, the
secondary stream's forwarded frames, and the two remote calls; the
secondary request body is built from the *unredacted* accumulated items
(the mutation happens after it is serialized), and the loop continues
with `sqlDetected` set and this event's accumulated items in their
post-mutation `redactedItems` form. -/
theorem processEvents_trigger_step (env : Env) (m : List Json) (u : String)
    (name : Option String) (p sqlv trj stmtJson : Json) (hdl : Option Json)
    (l : List Json) (evs' rest : List SSEEvent) (st : LoopSt)
    (hskip : shouldSkipEvent ⟨name, .json p⟩ p = false)
    (hacc : accumulateItems p = .ok l)
    (hsql : sqlOf p = some sqlv)
    (htr : sqlv.truthy = true)
    (hex : extractSQLFromPayload p = some trj)
    (hsub : env.submitResp (submittedStatement u sqlv) = some stmtJson)
    (hsel : selectHandle stmtJson = .ok hdl)
    (hd2a : env.d2a (d2aRequestBody env.config m (st.acc ++ l) hdl) = some evs') :
    processEvents env m u (⟨name, .json p⟩ :: rest) st =
      ⟨interceptBlock trj stmtJson ++ runD2aEvents evs' ++
         (processEvents env m u rest ⟨true, st.acc ++ redactedItems p⟩).frames,
       .submit (submittedStatement u sqlv) ::
         .agentRunD2a (d2aRequestBody env.config m (st.acc ++ l) hdl) ::
         (processEvents env m u rest ⟨true, st.acc ++ redactedItems p⟩).calls,
       (processEvents env m u rest ⟨true, st.acc ++ redactedItems p⟩).st,
       (processEvents env m u rest ⟨true, st.acc ++ redactedItems p⟩).ending⟩ := by
  have htrig : isTrigger p = true := by simp [isTrigger, hsql, htr]
  simp [processEvents, decodeData, hskip, hacc, htrig, hsql, hex, hsub, hsel, hd2a,
    interceptBlock, List.append_assoc]

theorem isTerminal_writeSSE (n : Option String) (v : Json)
    (hn : n ≠ some "error") (hv : spoofValue v = false) :
    isTerminalFrame (writeSSE n v) = false := by
  cases v with
  | str s =>
    simp only [spoofValue, beq_eq_false_iff_ne, ne_eq] at hv
    simp [writeSSE, hv, isTerminalFrame, hn]
  | null => simp [writeSSE, isTerminalFrame, hn]
  | bool b => simp [writeSSE, isTerminalFrame, hn]
  | num k => simp [writeSSE, isTerminalFrame, hn]
  | arr l => simp [writeSSE, isTerminalFrame, hn]
  | obj fs => simp [writeSSE, isTerminalFrame, hn]

theorem doneFrame_terminal : isTerminalFrame doneFrame = true := rfl

theorem errorFrame_terminal : isTerminalFrame errorFrame = true := rfl

theorem runD2a_no_terminals :
    ∀ evs : List SSEEvent, (∀ e ∈ evs, noSpoof e = true) →
    (runD2aEvents evs).filter isTerminalFrame = [] := by
  intro evs
  induction evs with
  | nil => intro _; rfl
  | cons e rest ih =>
    intro h
    have he : noSpoof e = true := h e (by simp)
    have hrest : ∀ x ∈ rest, noSpoof x = true := fun x hx => h x (by simp [hx])
    obtain ⟨name, data⟩ := e
    have hname : name ≠ some "error" := by
      simp only [noSpoof, Bool.and_eq_true, decide_eq_true_eq] at he
      exact he.1
    cases data with
    | done => rfl
    | json j =>
      have hsp : spoofValue (decodeData (.json j)) = false := by
        simp only [noSpoof, Bool.and_eq_true] at he
        simpa using he.2
      by_cases h1 : name = some "execution_trace" <;>
        by_cases h2 : hasEmptyContent (decodeData (.json j)) = true <;>
          simp [runD2aEvents, h1, h2, ih hrest, isTerminal_writeSSE _ _ hname hsp]
    | raw s =>
      have hsp : spoofValue (decodeData (.raw s)) = false := by
        simp only [noSpoof, Bool.and_eq_true] at he
        simpa using he.2
      by_cases h1 : name = some "execution_trace" <;>
        by_cases h2 : hasEmptyContent (decodeData (.raw s)) = true <;>
          simp [runD2aEvents, h1, h2, ih hrest, isTerminal_writeSSE _ _ hname hsp]
    | empty =>
      have hsp : spoofValue (decodeData .empty) = false := by
        simp only [noSpoof, Bool.and_eq_true] at he
        simpa using he.2
      by_cases h1 : name = some "execution_trace" <;>
        by_cases h2 : hasEmptyContent (decodeData .empty) = true <;>
          simp [runD2aEvents, h1, h2, ih hrest, isTerminal_writeSSE _ _ hname hsp]

theorem textFrames_no_terminals (trj : Json) :
    (textFramesOf trj).filter isTerminalFrame = [] := by
  unfold textFramesOf
  cases h : trj.get? "text" with
  | none => rfl
  | some t =>
    by_cases ht : t.truthy = true
    · simp [ht, isTerminalFrame, writeSSE, synthTextDelta]
    · simp only [Bool.not_eq_true] at ht
      simp [ht]

theorem interceptBlock_no_terminals (trj stmtJson : Json)
    (hs : spoofValue stmtJson = false) :
    (interceptBlock trj stmtJson).filter isTerminalFrame = [] := by
  have h1 := textFrames_no_terminals trj
  have h2 : isTerminalFrame (writeSSE (some "table_result") stmtJson) = false :=
    isTerminal_writeSSE _ _ (by simp) hs
  have h3 : isTerminalFrame (writeSSE (some "new_assistant_message") newAssistantMarker) = false := by
    simp [writeSSE, newAssistantMarker, isTerminalFrame]
  simp [interceptBlock, List.filter_append, h1, h2, h3]

/-- The primary loop writes at most one terminal-class frame, and writes
exactly one precisely when it breaks at the sentinel with `sqlDetected`
still false (the in-loop `done`); under spoof-free inputs no forwarded or
interception frame is terminal-class. -/
theorem terminals_processEvents (env : Env) (m : List Json) (u : String)
    (hsub : ∀ s r, env.submitResp s = some r → spoofValue r = false)
    (hd2a : ∀ b evs', env.d2a b = some evs' → ∀ e ∈ evs', noSpoof e = true) :
    ∀ (evs : List SSEEvent) (st : LoopSt), (∀ e ∈ evs, noSpoof e = true) →
    (processEvents env m u evs st).frames.filter isTerminalFrame =
      (if (processEvents env m u evs st).ending = .doneBreak ∧
          (processEvents env m u evs st).st.sqlDetected = false
       then [doneFrame] else []) := by
  intro evs
  induction evs with
  | nil => intro st _; simp [processEvents]
  | cons e rest ih =>
    intro st h
    have he : noSpoof e = true := h e (by simp)
    have hrest : ∀ x ∈ rest, noSpoof x = true := fun x hx => h x (by simp [hx])
    obtain ⟨name, data⟩ := e
    have hname : name ≠ some "error" := by
      simp only [noSpoof, Bool.and_eq_true, decide_eq_true_eq] at he
      exact he.1
    cases data with
    | done =>
      by_cases hq : st.sqlDetected = true <;>
        simp [processEvents, hq, doneFrame, isTerminalFrame, writeSSE]
    | json j =>
      have hsp : spoofValue (decodeData (.json j)) = false := by
        simp only [noSpoof, Bool.and_eq_true] at he
        simpa using he.2
      by_cases hskip : shouldSkipEvent ⟨name, .json j⟩ (decodeData (.json j)) = true
      · simp [processEvents, hskip, ih _ hrest]
      · simp only [Bool.not_eq_true] at hskip
        cases hA : accumulateItems (decodeData (.json j)) with
        | error a => simp [processEvents, hskip, hA]
        | ok l =>
          by_cases htrig : isTrigger (decodeData (.json j)) = true
          · cases hS : env.submitResp
                (submittedStatement u ((sqlOf (decodeData (.json j))).getD .null)) with
            | none =>
              simp [processEvents, hskip, hA, htrig, hS, textFrames_no_terminals]
            | some stmtJson =>
              have hsJ : spoofValue stmtJson = false := hsub _ _ hS
              cases hSel : selectHandle stmtJson with
              | error a =>
                simp [processEvents, hskip, hA, htrig, hS, hSel, textFrames_no_terminals]
              | ok hdl =>
                have htab : isTerminalFrame (writeSSE (some "table_result") stmtJson) = false :=
                  isTerminal_writeSSE _ _ (by simp) hsJ
                have hmark : isTerminalFrame
                    (writeSSE (some "new_assistant_message") newAssistantMarker) = false := by
                  simp [writeSSE, newAssistantMarker, isTerminalFrame]
                cases hD : env.d2a
                    (d2aRequestBody env.config m (st.acc ++ l) hdl) with
                | none =>
                  simp [processEvents, hskip, hA, htrig, hS, hSel, hD,
                    List.filter_append, textFrames_no_terminals, htab, hmark]
                | some evs' =>
                  have hdn := runD2a_no_terminals evs' (hd2a _ _ hD)
                  simp [processEvents, hskip, hA, htrig, hS, hSel, hD,
                    List.filter_append, textFrames_no_terminals, hdn, htab, hmark,
                    ih _ hrest]
          · simp only [Bool.not_eq_true] at htrig
            simp [processEvents, hskip, hA, htrig, ih _ hrest,
              isTerminal_writeSSE _ _ hname hsp]
    | raw s =>
      have hsp : spoofValue (decodeData (.raw s)) = false := by
        simp only [noSpoof, Bool.and_eq_true] at he
        simpa using he.2
      have htrig : isTrigger (decodeData (.raw s)) = false := rfl
      have hA : accumulateItems (decodeData (.raw s)) = Except.ok [] := rfl
      by_cases hskip : shouldSkipEvent ⟨name, .raw s⟩ (decodeData (.raw s)) = true
      · simp [processEvents, hskip, ih _ hrest]
      · simp only [Bool.not_eq_true] at hskip
        simp [processEvents, hskip, htrig, hA,
          ih _ hrest, isTerminal_writeSSE _ _ hname hsp]
    | empty =>
      have hsp : spoofValue (decodeData .empty) = false := by
        simp only [noSpoof, Bool.and_eq_true] at he
        simpa using he.2
      have htrig : isTrigger (decodeData .empty) = false := rfl
      have hA : accumulateItems (decodeData .empty) = Except.ok [] := rfl
      by_cases hskip : shouldSkipEvent ⟨name, .empty⟩ (decodeData .empty) = true
      · simp [processEvents, hskip, ih _ hrest]
      · simp only [Bool.not_eq_true] at hskip
        simp [processEvents, hskip, htrig, hA,
          ih _ hrest, isTerminal_writeSSE _ _ hname hsp]

/-- A frame that does not carry an unredacted truthy `sql` field at the
interception path of its JSON payload. -/
def liveSqlFree (f : Frame) : Bool :=
  match f.data with
  | .sentinel => true
  | .json q => !carriesLiveSql q

theorem liveSqlFree_writeSSE (n : Option String) (v : Json)
    (hv : carriesLiveSql v = false) : liveSqlFree (writeSSE n v) = true := by
  cases v with
  | str s =>
    by_cases h : s = "[DONE]" <;> simp_all [writeSSE, liveSqlFree]
  | null => simpa [writeSSE, liveSqlFree] using hv
  | bool b => simpa [writeSSE, liveSqlFree] using hv
  | num k => simpa [writeSSE, liveSqlFree] using hv
  | arr l => simpa [writeSSE, liveSqlFree] using hv
  | obj fs => simpa [writeSSE, liveSqlFree] using hv

theorem synthTextDelta_sqlFree (t : Json) : carriesLiveSql (synthTextDelta t) = false := rfl

theorem newAssistantMarker_sqlFree : carriesLiveSql newAssistantMarker = false := rfl

theorem errorBody_sqlFree : carriesLiveSql errorBody = false := rfl

theorem textFrames_liveFree (trj : Json) :
    ∀ f ∈ textFramesOf trj, liveSqlFree f = true := by
  unfold textFramesOf
  cases h : trj.get? "text" with
  | none => simp
  | some t =>
    by_cases ht : t.truthy = true
    · simp only [ht, if_true, List.mem_singleton]
      rintro f rfl
      exact liveSqlFree_writeSSE _ _ (synthTextDelta_sqlFree t)
    · simp only [Bool.not_eq_true] at ht
      simp [ht]

theorem runD2a_liveFree :
    ∀ evs : List SSEEvent, (∀ e ∈ evs, carriesLiveSql (decodeData e.data) = false) →
    ∀ f ∈ runD2aEvents evs, liveSqlFree f = true := by
  intro evs
  induction evs with
  | nil => intro _ f hf; simp [runD2aEvents] at hf
  | cons e rest ih =>
    intro h
    have he : carriesLiveSql (decodeData e.data) = false := h e (by simp)
    have hrest : ∀ x ∈ rest, carriesLiveSql (decodeData x.data) = false :=
      fun x hx => h x (by simp [hx])
    obtain ⟨name, data⟩ := e
    cases data with
    | done => simp [runD2aEvents]
    | json j =>
      by_cases h1 : name = some "execution_trace"
      · simpa [runD2aEvents, h1] using ih hrest
      · by_cases h2 : hasEmptyContent (decodeData (.json j)) = true
        · simpa [runD2aEvents, h1, h2] using ih hrest
        · simp only [Bool.not_eq_true] at h2
          simp only [runD2aEvents, h1, if_false, h2, Bool.false_eq_true,
            List.forall_mem_cons]
          exact ⟨liveSqlFree_writeSSE _ _ he, ih hrest⟩
    | raw s =>
      by_cases h1 : name = some "execution_trace"
      · simpa [runD2aEvents, h1] using ih hrest
      · by_cases h2 : hasEmptyContent (decodeData (.raw s)) = true
        · simpa [runD2aEvents, h1, h2] using ih hrest
        · simp only [Bool.not_eq_true] at h2
          simp only [runD2aEvents, h1, if_false, h2, Bool.false_eq_true,
            List.forall_mem_cons]
          exact ⟨liveSqlFree_writeSSE _ _ he, ih hrest⟩
    | empty =>
      by_cases h1 : name = some "execution_trace"
      · simpa [runD2aEvents, h1] using ih hrest
      · by_cases h2 : hasEmptyContent (decodeData .empty) = true
        · simpa [runD2aEvents, h1, h2] using ih hrest
        · simp only [Bool.not_eq_true] at h2
          simp only [runD2aEvents, h1, if_false, h2, Bool.false_eq_true,
            List.forall_mem_cons]
          exact ⟨liveSqlFree_writeSSE _ _ he, ih hrest⟩

/-- No frame the primary loop writes carries a truthy `sql` field at the
interception path, provided the warehouse responses and the secondary
streams are themselves free of such payloads: primary payloads with truthy
SQL are intercepted (and not forwarded), and every synthesized frame is
SQL-free by construction. -/
theorem security_processEvents (env : Env) (m : List Json) (u : String)
    (hsub : ∀ s r, env.submitResp s = some r → carriesLiveSql r = false)
    (hd2a : ∀ b evs', env.d2a b = some evs' →
      ∀ e ∈ evs', carriesLiveSql (decodeData e.data) = false) :
    ∀ (evs : List SSEEvent) (st : LoopSt),
    ∀ f ∈ (processEvents env m u evs st).frames, liveSqlFree f = true := by
  intro evs
  induction evs with
  | nil => intro st f hf; simp [processEvents] at hf
  | cons e rest ih =>
    intro st
    obtain ⟨name, data⟩ := e
    cases data with
    | done =>
      intro f hf
      by_cases hq : st.sqlDetected = true
      · simp [processEvents, hq] at hf
      · simp only [Bool.not_eq_true] at hq
        simp [processEvents, hq] at hf
        subst hf
        rfl
    | json j =>
      by_cases hskip : shouldSkipEvent ⟨name, .json j⟩ (decodeData (.json j)) = true
      · intro f hf
        exact ih st f (by simpa [processEvents, hskip] using hf)
      · simp only [Bool.not_eq_true] at hskip
        cases hA : accumulateItems (decodeData (.json j)) with
        | error a => intro f hf; simp [processEvents, hskip, hA] at hf
        | ok l =>
          by_cases htrig : isTrigger (decodeData (.json j)) = true
          · cases hS : env.submitResp
                (submittedStatement u ((sqlOf (decodeData (.json j))).getD .null)) with
            | none =>
              simp only [processEvents, hskip, hA, htrig, hS, if_false, if_true,
                Bool.false_eq_true]
              exact textFrames_liveFree _
            | some stmtJson =>
              have htabL : liveSqlFree (writeSSE (some "table_result") stmtJson) = true :=
                liveSqlFree_writeSSE _ _ (hsub _ _ hS)
              have hmarkL : liveSqlFree
                  (writeSSE (some "new_assistant_message") newAssistantMarker) = true := rfl
              cases hSel : selectHandle stmtJson with
              | error a =>
                simp only [processEvents, hskip, hA, htrig, hS, hSel, if_false, if_true,
                  Bool.false_eq_true]
                exact textFrames_liveFree _
              | ok hdl =>
                cases hD : env.d2a
                    (d2aRequestBody env.config m (st.acc ++ l) hdl) with
                | none =>
                  simp only [processEvents, hskip, hA, htrig, hS, hSel, hD, if_false,
                    if_true, Bool.false_eq_true, List.forall_mem_append,
                    List.forall_mem_cons, List.forall_mem_singleton]
                  exact ⟨textFrames_liveFree _, htabL, hmarkL, by simp⟩
                | some evs' =>
                  simp only [processEvents, hskip, hA, htrig, hS, hSel, hD, if_false,
                    if_true, Bool.false_eq_true, List.forall_mem_append,
                    List.forall_mem_cons, List.forall_mem_singleton]
                  exact ⟨⟨⟨textFrames_liveFree _, htabL, hmarkL, by simp⟩,
                    runD2a_liveFree evs' (hd2a _ _ hD)⟩, ih _⟩
          · simp only [Bool.not_eq_true] at htrig
            have hv : carriesLiveSql (decodeData (.json j)) = false := by
              simpa [carriesLiveSql] using htrig
            simp only [processEvents, hskip, hA, htrig, if_false, Bool.false_eq_true,
              List.forall_mem_cons]
            exact ⟨liveSqlFree_writeSSE _ _ hv, ih _⟩
    | raw s =>
      have htrig : isTrigger (decodeData (.raw s)) = false := rfl
      have hA : accumulateItems (decodeData (.raw s)) = Except.ok [] := rfl
      have hv : carriesLiveSql (decodeData (.raw s)) = false := rfl
      by_cases hskip : shouldSkipEvent ⟨name, .raw s⟩ (decodeData (.raw s)) = true
      · intro f hf
        exact ih st f (by simpa [processEvents, hskip] using hf)
      · simp only [Bool.not_eq_true] at hskip
        simp only [processEvents, hskip, hA, htrig, if_false, Bool.false_eq_true,
          List.forall_mem_cons]
        exact ⟨liveSqlFree_writeSSE _ _ hv, ih _⟩
    | empty =>
      have htrig : isTrigger (decodeData .empty) = false := rfl
      have hA : accumulateItems (decodeData .empty) = Except.ok [] := rfl
      have hv : carriesLiveSql (decodeData .empty) = false := rfl
      by_cases hskip : shouldSkipEvent ⟨name, .empty⟩ (decodeData .empty) = true
      · intro f hf
        exact ih st f (by simpa [processEvents, hskip] using hf)
      · simp only [Bool.not_eq_true] at hskip
        simp only [processEvents, hskip, hA, htrig, if_false, Bool.false_eq_true,
          List.forall_mem_cons]
        exact ⟨liveSqlFree_writeSSE _ _ hv, ih _⟩

/-- Every remote call made inside the primary loop is either a statement
submission of the tenant-wrapped statement for the logged-in user, or a
secondary data-to-analytics agent call; in particular the loop never calls
the result-fetch endpoint (`getSQLResults` is dead code here). -/
theorem calls_processEvents_shape (env : Env) (m : List Json) (u : String) :
    ∀ (evs : List SSEEvent) (st : LoopSt) (c : Call),
    c ∈ (processEvents env m u evs st).calls →
    (∃ v, c = .submit (submittedStatement u v)) ∨ (∃ b, c = .agentRunD2a b) := by
  intro evs
  induction evs with
  | nil => intro st c hc; simp [processEvents] at hc
  | cons e rest ih =>
    intro st c
    obtain ⟨name, data⟩ := e
    cases data with
    | done =>
      intro hc
      by_cases hq : st.sqlDetected = true <;> simp [processEvents, hq] at hc
    | json j =>
      by_cases hskip : shouldSkipEvent ⟨name, .json j⟩ (decodeData (.json j)) = true
      · intro hc
        exact ih st c (by simpa [processEvents, hskip] using hc)
      · simp only [Bool.not_eq_true] at hskip
        cases hA : accumulateItems (decodeData (.json j)) with
        | error a => intro hc; simp [processEvents, hskip, hA] at hc
        | ok l =>
          by_cases htrig : isTrigger (decodeData (.json j)) = true
          · cases hS : env.submitResp
                (submittedStatement u ((sqlOf (decodeData (.json j))).getD .null)) with
            | none =>
              intro hc
              simp only [processEvents, hskip, hA, htrig, hS, if_false, if_true,
                Bool.false_eq_true, List.mem_singleton] at hc
              exact Or.inl ⟨_, hc⟩
            | some stmtJson =>
              cases hSel : selectHandle stmtJson with
              | error a =>
                intro hc
                simp only [processEvents, hskip, hA, htrig, hS, hSel, if_false, if_true,
                  Bool.false_eq_true, List.mem_singleton] at hc
                exact Or.inl ⟨_, hc⟩
              | ok hdl =>
                cases hD : env.d2a
                    (d2aRequestBody env.config m (st.acc ++ l) hdl) with
                | none =>
                  intro hc
                  simp only [processEvents, hskip, hA, htrig, hS, hSel, hD, if_false,
                    if_true, Bool.false_eq_true, List.mem_cons, List.mem_singleton,
                    List.not_mem_nil, or_false] at hc
                  rcases hc with hc | hc
                  · exact Or.inl ⟨_, hc⟩
                  · exact Or.inr ⟨_, hc⟩
                | some evs' =>
                  intro hc
                  simp only [processEvents, hskip, hA, htrig, hS, hSel, hD, if_false,
                    if_true, Bool.false_eq_true, List.mem_cons] at hc
                  rcases hc with hc | hc | hc
                  · exact Or.inl ⟨_, hc⟩
                  · exact Or.inr ⟨_, hc⟩
                  · exact ih _ c hc
          · simp only [Bool.not_eq_true] at htrig
            intro hc
            exact ih ⟨st.sqlDetected, st.acc ++ l⟩ c
              (by simpa [processEvents, hskip, hA, htrig] using hc)
    | raw s =>
      have htrig : isTrigger (decodeData (.raw s)) = false := rfl
      have hA : accumulateItems (decodeData (.raw s)) = Except.ok [] := rfl
      by_cases hskip : shouldSkipEvent ⟨name, .raw s⟩ (decodeData (.raw s)) = true
      · intro hc
        exact ih st c (by simpa [processEvents, hskip] using hc)
      · simp only [Bool.not_eq_true] at hskip
        intro hc
        exact ih st c (by simpa [processEvents, hskip, hA, htrig] using hc)
    | empty =>
      have htrig : isTrigger (decodeData .empty) = false := rfl
      have hA : accumulateItems (decodeData .empty) = Except.ok [] := rfl
      by_cases hskip : shouldSkipEvent ⟨name, .empty⟩ (decodeData .empty) = true
      · intro hc
        exact ih st c (by simpa [processEvents, hskip] using hc)
      · simp only [Bool.not_eq_true] at hskip
        intro hc
        exact ih st c (by simpa [processEvents, hskip, hA, htrig] using hc)

theorem lookup_modifyField_self (k : String) (f : Json → Json) :
    ∀ fs : List (String × Json), (modifyField k f fs).lookup k = (fs.lookup k).map f := by
  intro fs
  induction fs with
  | nil => rfl
  | cons kv rest ih =>
    obtain ⟨k', v⟩ := kv
    by_cases h : k' = k
    · subst h
      simp [modifyField, List.lookup]
    · have hbeq : (k == k') = false := by
        simp [beq_eq_false_iff_ne]
        exact fun hk => h hk.symm
      simp [modifyField, h, List.lookup, hbeq, ih]

theorem get_modifyKey_self (k : String) (f : Json → Json) (j : Json) :
    (Json.modifyKey k f j).get? k = (j.get? k).map f := by
  cases j <;> simp [Json.modifyKey, Json.get?, lookup_modifyField_self]

theorem get_modifyNth_self (f : Json → Json) :
    ∀ (i : Nat) (l : List Json), (modifyNth f i l)[i]? = (l[i]?).map f := by
  intro i
  induction i with
  | zero => intro l; cases l <;> simp [modifyNth]
  | succ n ih => intro l; cases l <;> simp [modifyNth, ih]

theorem idx_modifyIdx_self (i : Nat) (f : Json → Json) (j : Json) :
    (Json.modifyIdx i f j).idx? i = (j.idx? i).map f := by
  cases j <;> simp [Json.modifyIdx, Json.idx?, get_modifyNth_self]

theorem modifyField_modifyField (k : String) (f g : Json → Json) :
    ∀ fs : List (String × Json),
    modifyField k f (modifyField k g fs) = modifyField k (fun v => f (g v)) fs := by
  intro fs
  induction fs with
  | nil => rfl
  | cons kv rest ih =>
    obtain ⟨k', v⟩ := kv
    by_cases h : k' = k <;> simp [modifyField, h, ih]

theorem modifyKey_modifyKey (k : String) (f g : Json → Json) (j : Json) :
    Json.modifyKey k f (Json.modifyKey k g j) = Json.modifyKey k (fun v => f (g v)) j := by
  cases j <;> simp [Json.modifyKey, modifyField_modifyField]

theorem modifyNth_modifyNth (f g : Json → Json) :
    ∀ (i : Nat) (l : List Json),
    modifyNth f i (modifyNth g i l) = modifyNth (fun v => f (g v)) i l := by
  intro i
  induction i with
  | zero => intro l; cases l <;> simp [modifyNth]
  | succ n ih => intro l; cases l <;> simp [modifyNth, ih]

theorem modifyIdx_modifyIdx (i : Nat) (f g : Json → Json) (j : Json) :
    Json.modifyIdx i f (Json.modifyIdx i g j) = Json.modifyIdx i (fun v => f (g v)) j := by
  cases j <;> simp [Json.modifyIdx, modifyNth_modifyNth]

/-- Writing the `sql` leaf twice keeps only the outer write: the update
touches nothing but that leaf. -/
theorem setSqlField_setSqlField (v w : Json) (p : Json) :
    setSqlField v (setSqlField w p) = setSqlField v p := by
  have h8 : ∀ x : Json,
      Json.modifyKey "sql" (fun _ => v) (Json.modifyKey "sql" (fun _ => w) x) =
        Json.modifyKey "sql" (fun _ => v) x := fun x => by
    rw [modifyKey_modifyKey]
  have h7 : ∀ x : Json,
      Json.modifyKey "json" (·.modifyKey "sql" fun _ => v)
        (Json.modifyKey "json" (·.modifyKey "sql" fun _ => w) x) =
        Json.modifyKey "json" (·.modifyKey "sql" fun _ => v) x := fun x => by
    rw [modifyKey_modifyKey]
    congr 1
    funext y
    exact h8 y
  have h6 : ∀ x : Json,
      Json.modifyIdx 0 (·.modifyKey "json" (·.modifyKey "sql" fun _ => v))
        (Json.modifyIdx 0 (·.modifyKey "json" (·.modifyKey "sql" fun _ => w)) x) =
        Json.modifyIdx 0 (·.modifyKey "json" (·.modifyKey "sql" fun _ => v)) x := fun x => by
    rw [modifyIdx_modifyIdx]
    congr 1
    funext y
    exact h7 y
  have h5 : ∀ x : Json,
      Json.modifyKey "content"
          (·.modifyIdx 0 (·.modifyKey "json" (·.modifyKey "sql" fun _ => v)))
        (Json.modifyKey "content"
          (·.modifyIdx 0 (·.modifyKey "json" (·.modifyKey "sql" fun _ => w))) x) =
        Json.modifyKey "content"
          (·.modifyIdx 0 (·.modifyKey "json" (·.modifyKey "sql" fun _ => v))) x := fun x => by
    rw [modifyKey_modifyKey]
    congr 1
    funext y
    exact h6 y
  have h4 : ∀ x : Json,
      Json.modifyKey "tool_results"
          (·.modifyKey "content"
            (·.modifyIdx 0 (·.modifyKey "json" (·.modifyKey "sql" fun _ => v))))
        (Json.modifyKey "tool_results"
          (·.modifyKey "content"
            (·.modifyIdx 0 (·.modifyKey "json" (·.modifyKey "sql" fun _ => w)))) x) =
        Json.modifyKey "tool_results"
          (·.modifyKey "content"
            (·.modifyIdx 0 (·.modifyKey "json" (·.modifyKey "sql" fun _ => v)))) x := fun x => by
    rw [modifyKey_modifyKey]
    congr 1
    funext y
    exact h5 y
  have h3 : ∀ x : Json,
      Json.modifyIdx 1 (·.modifyKey "tool_results"
          (·.modifyKey "content"
            (·.modifyIdx 0 (·.modifyKey "json" (·.modifyKey "sql" fun _ => v)))))
        (Json.modifyIdx 1 (·.modifyKey "tool_results"
          (·.modifyKey "content"
            (·.modifyIdx 0 (·.modifyKey "json" (·.modifyKey "sql" fun _ => w))))) x) =
        Json.modifyIdx 1 (·.modifyKey "tool_results"
          (·.modifyKey "content"
            (·.modifyIdx 0 (·.modifyKey "json" (·.modifyKey "sql" fun _ => v))))) x := fun x => by
    rw [modifyIdx_modifyIdx]
    congr 1
    funext y
    exact h4 y
  have h2 : ∀ x : Json,
      Json.modifyKey "content" (·.modifyIdx 1 (·.modifyKey "tool_results"
          (·.modifyKey "content"
            (·.modifyIdx 0 (·.modifyKey "json" (·.modifyKey "sql" fun _ => v))))))
        (Json.modifyKey "content" (·.modifyIdx 1 (·.modifyKey "tool_results"
          (·.modifyKey "content"
            (·.modifyIdx 0 (·.modifyKey "json" (·.modifyKey "sql" fun _ => w)))))) x) =
        Json.modifyKey "content" (·.modifyIdx 1 (·.modifyKey "tool_results"
          (·.modifyKey "content"
            (·.modifyIdx 0 (·.modifyKey "json" (·.modifyKey "sql" fun _ => v)))))) x := fun x => by
    rw [modifyKey_modifyKey]
    congr 1
    funext y
    exact h3 y
  unfold setSqlField
  rw [modifyKey_modifyKey]
  congr 1
  funext y
  exact h2 y

/-- Updating the `sql` leaf of a payload on which the optional-chain read
succeeds makes the leaf read back as the written value. -/
theorem sqlOf_setSqlField (p v w : Json) (h : sqlOf p = some v) :
    sqlOf (setSqlField w p) = some w := by
  unfold sqlOf extractSQLFromPayload at h
  rw [Option.bind_eq_some] at h
  obtain ⟨x7, h7, hx7⟩ := h
  rw [Option.bind_eq_some] at h7
  obtain ⟨x6, h6, hx6⟩ := h7
  rw [Option.bind_eq_some] at h6
  obtain ⟨x5, h5, hx5⟩ := h6
  rw [Option.bind_eq_some] at h5
  obtain ⟨x4, h4, hx4⟩ := h5
  rw [Option.bind_eq_some] at h4
  obtain ⟨x3, h3, hx3⟩ := h4
  rw [Option.bind_eq_some] at h3
  obtain ⟨x2, h2, hx2⟩ := h3
  rw [Option.bind_eq_some] at h2
  obtain ⟨x1, h1, hx1⟩ := h2
  unfold setSqlField sqlOf extractSQLFromPayload
  simp only [get_modifyKey_self, idx_modifyIdx_self, h1, hx1, hx2, hx3, hx4, hx5, hx6, hx7,
    Option.map_some', Option.some_bind]

/-- Redaction rewrites the truthy `sql` leaf to the sentinel `REDACTED`. -/
theorem redact_sets_sentinel (p v : Json) (h : sqlOf p = some v) (ht : v.truthy = true) :
    sqlOf (redactPayload p) = some (.str "REDACTED") := by
  unfold redactPayload
  rw [h]
  simp only [ht, if_true]
  exact sqlOf_setSqlField p v _ h

/-- Redaction changes at most the `sql` leaf: overwriting that leaf in the
redacted payload and in the original payload gives identical values. -/
theorem redact_frames_everything_else (p w : Json) :
    setSqlField w (redactPayload p) = setSqlField w p := by
  unfold redactPayload
  cases h : sqlOf p with
  | none => rfl
  | some v =>
    by_cases ht : v.truthy = true
    · simp only [ht, if_true]
      exact setSqlField_setSqlField w (.str "REDACTED") p
    · simp only [Bool.not_eq_true] at ht
      simp [ht]

/-- Redaction is the identity when the structural path is absent. -/
theorem redact_id_of_no_path (p : Json) (h : sqlOf p = none) : redactPayload p = p := by
  unfold redactPayload
  rw [h]

/-- A concrete SQL-bearing delta payload in the upstream convention:
analyst text at content index 0, the `tool_results` item at index 1,
with embedded `sql` and explanatory `text`. -/
def samplePayload : Json :=
  .obj [("delta", .obj [("content", .arr [
    .obj [("type", .str "text"), ("text", .str "hello")],
    .obj [("type", .str "tool_results"),
          ("tool_results", .obj [("name", .str "analyst1"),
            ("content", .arr [
              .obj [("type", .str "json"),
                    ("json", .obj [("sql", .str "SELECT 1"), ("text", .str "explain")])]])])]])])]

/-- A concrete SQL-triggering upstream event carrying `samplePayload`. -/
def sampleTrigger : SSEEvent := ⟨some "response.delta", .json samplePayload⟩

/-- The upstream `[DONE]` sentinel event. -/
def sampleDone : SSEEvent := ⟨none, .done⟩

/-- A concrete healthy environment: submissions return a single
`statementHandle`, the secondary stream is empty. -/
def sampleEnv : Env :=
  { config := []
    submitResp := fun _ => some (.obj [("statementHandle", .str "H1")])
    fetchResp := fun _ => some (.obj [("fetched", .bool true)])
    d2a := fun _ => some [] }

/-- An environment whose submission response and result-fetch response are
observably different, to separate the two on the outbound stream. -/
def envC4 : Env :=
  { config := []
    submitResp := fun _ => some (.obj [("source", .str "submission")])
    fetchResp := fun _ => some (.obj [("source", .str "fetch")])
    d2a := fun _ => some [] }

/-- An environment whose submission response carries a `statementHandles`
array ending in a falsy handle next to a truthy single `statementHandle`. -/
def envC10 : Env :=
  { config := []
    submitResp := fun _ => some (.obj [("statementHandles", .arr [.str "A", .str ""]),
                                       ("statementHandle", .str "B")])
    fetchResp := fun _ => none
    d2a := fun _ => some [] }

/-- A payload whose interception-path `sql` field is present but falsy
(the empty string). -/
def falsySqlPayload : Json :=
  .obj [("delta", .obj [("content", .arr [.null,
    .obj [("tool_results", .obj [("content", .arr [
      .obj [("json", .obj [("sql", .str "")])]])])]])])]

/-- C2 counterexample: `redact` does not replace every *present* `sql`
field — the guard is JS truthiness, so a payload whose `sql` is the empty
string keeps it unchanged instead of receiving `"REDACTED"`. -/
theorem c2_counterexample :
    sqlOf falsySqlPayload = some (.str "")
    ∧ redactPayload falsySqlPayload = falsySqlPayload
    ∧ (Json.str "" ≠ .str "REDACTED") :=
  ⟨rfl, rfl, by simp⟩

/-- C2 (amended): redaction is a pure function that, for every payload
whose interception-path `sql` field is present *and truthy*, rewrites that
field to the literal `REDACTED` while changing nothing else (overwriting
the `sql` leaf of the redacted and the original payload gives identical
values); a payload with no `sql` path, or with a falsy `sql` value, is
returned unchanged; and on the pipeline no frame written to the client
carries a truthy `sql` field at the interception path, provided the
warehouse responses and secondary streams are themselves free of one. -/
theorem c2_redaction_amended :
    (∀ p v : Json, sqlOf p = some v → v.truthy = true →
      sqlOf (redactPayload p) = some (.str "REDACTED"))
    ∧ (∀ p w : Json, setSqlField w (redactPayload p) = setSqlField w p)
    ∧ (∀ p : Json, sqlOf p = none → redactPayload p = p)
    ∧ (∀ p v : Json, sqlOf p = some v → v.truthy = false → redactPayload p = p)
    ∧ (∀ (env : Env) (m : List Json) (u : String),
        (∀ s r, env.submitResp s = some r → carriesLiveSql r = false) →
        (∀ b evs', env.d2a b = some evs' →
          ∀ e ∈ evs', carriesLiveSql (decodeData e.data) = false) →
        ∀ (evs : List SSEEvent) (st : LoopSt),
        ∀ f ∈ (processEvents env m u evs st).frames, liveSqlFree f = true) :=
  ⟨redact_sets_sentinel, redact_frames_everything_else, redact_id_of_no_path,
   fun p v h ht => by unfold redactPayload; rw [h]; simp [ht],
   security_processEvents⟩

/-- C2 witness: the amended redaction contract evaluated on the concrete
SQL-bearing payload and on a payload with no `sql` path. -/
theorem c2_witness :
    sqlOf (redactPayload samplePayload) = some (.str "REDACTED")
    ∧ redactPayload (.obj []) = .obj [] :=
  ⟨c2_redaction_amended.1 samplePayload (.str "SELECT 1") rfl rfl,
   c2_redaction_amended.2.2.1 (.obj []) rfl⟩

/-- C6: the statement submitted to the warehouse embeds the session-scoped
tenant assignment joined to the SQL by the single `' ->> '` convention;
with no tenant identity the SQL value is submitted unmodified; and every
statement-submission call of the primary loop has exactly this shape. -/
theorem c6_tenant_binding :
    submittedStatement "Alice" (.str "SELECT 1") = .str "SET TENANT = 'Alice' ->> SELECT 1"
    ∧ (∃ pre post : String,
        "SET TENANT = 'Alice' ->> SELECT 1" = pre ++ "SET TENANT = 'Alice'" ++ post)
    ∧ (∃ pre post : String,
        "SET TENANT = 'Alice' ->> SELECT 1" = pre ++ "SELECT 1" ++ post)
    ∧ (∀ (u s : String), u ≠ "" →
        submittedStatement u (.str s) = .str ("SET TENANT = '" ++ u ++ "' ->> " ++ s))
    ∧ (∀ j : Json, submittedStatement "" j = j)
    ∧ (∀ (env : Env) (m : List Json) (u : String) (evs : List SSEEvent) (st : LoopSt)
        (stm : Json), Call.submit stm ∈ (processEvents env m u evs st).calls →
        ∃ v, stm = submittedStatement u v) := by
  refine ⟨rfl, ⟨"", " ->> SELECT 1", rfl⟩, ⟨"SET TENANT = 'Alice' ->> ", "", rfl⟩,
    ?_, ?_, ?_⟩
  · intro u s hu
    simp [submittedStatement, hu, Json.jsString]
  · intro j
    simp [submittedStatement]
  · intro env m u evs st stm hmem
    rcases calls_processEvents_shape env m u evs st _ hmem with ⟨v, hv⟩ | ⟨b, hb⟩
    · exact ⟨v, by injection hv⟩
    · simp at hb

/-- C6 witness: the tenant-binding convention evaluated at the concrete
tenant `Bob` and SQL `SELECT 42`, and the no-tenant identity case. -/
theorem c6_witness :
    submittedStatement "Bob" (.str "SELECT 42") =
      .str ("SET TENANT = '" ++ "Bob" ++ "' ->> " ++ "SELECT 42")
    ∧ submittedStatement "" (.str "SELECT 42") = .str "SELECT 42" :=
  ⟨c6_tenant_binding.2.2.2.1 "Bob" "SELECT 42" (by decide),
   c6_tenant_binding.2.2.2.2.1 (.str "SELECT 42")⟩

/-- C8 counterexample: an event with an *empty* data string (not valid
JSON) is forwarded as the empty-object payload, not as an opaque raw
string; and an `execution_trace`-named event whose data is not valid JSON
is dropped, not forwarded. -/
theorem c8_counterexample :
    (processEvents sampleEnv [] "" [⟨some "evt", .empty⟩, sampleDone] initSt).frames =
      [⟨some "evt", .json (.obj [])⟩, ⟨some "done", .sentinel⟩]
    ∧ (Json.obj [] ≠ .str "")
    ∧ (processEvents sampleEnv [] ""
        [⟨some "execution_trace", .raw "oops not json"⟩, sampleDone] initSt).frames =
      [⟨some "done", .sentinel⟩] :=
  ⟨rfl, by simp, rfl⟩

/-- C8 (amended): on both streams, an event that is not named
`execution_trace` and whose non-empty data is not valid JSON (and is not
the sentinel string) is forwarded with the raw string as its opaque
payload, without crashing and without being dropped. -/
theorem c8_decode_fallback_amended :
    (∀ (env : Env) (m : List Json) (u : String) (name : Option String) (s : String)
      (rest : List SSEEvent) (st : LoopSt),
      name ≠ some "execution_trace" → s ≠ "[DONE]" →
      processEvents env m u (⟨name, .raw s⟩ :: rest) st =
        ⟨⟨name, .json (.str s)⟩ :: (processEvents env m u rest st).frames,
         (processEvents env m u rest st).calls,
         (processEvents env m u rest st).st,
         (processEvents env m u rest st).ending⟩)
    ∧ (∀ (name : Option String) (s : String) (rest : List SSEEvent),
        name ≠ some "execution_trace" → s ≠ "[DONE]" →
        runD2aEvents (⟨name, .raw s⟩ :: rest) =
          ⟨name, .json (.str s)⟩ :: runD2aEvents rest) := by
  constructor
  · intro env m u name s rest st hname hs
    have hskip : shouldSkipEvent ⟨name, .raw s⟩ (Json.str s) = false := by
      simp [shouldSkipEvent, hasEmptyContent, Json.get?, hname]
    have hA : accumulateItems (Json.str s) = Except.ok [] := rfl
    have htrig : isTrigger (Json.str s) = false := rfl
    simp [processEvents, decodeData, hskip, hA, htrig, writeSSE, hs]
  · intro name s rest hname hs
    simp [runD2aEvents, hname, hasEmptyContent, decodeData, Json.get?, writeSSE, hs]

/-- C8 witness: the opaque-forward behaviour evaluated on a concrete
non-JSON data string on both streams. -/
theorem c8_witness :
    processEvents sampleEnv [] "" [⟨some "evt", .raw "oops not json"⟩] initSt =
      ⟨[⟨some "evt", .json (.str "oops not json")⟩], [], initSt, .streamEnd⟩
    ∧ runD2aEvents [⟨some "evt", .raw "oops not json"⟩] =
      [⟨some "evt", .json (.str "oops not json")⟩] := by
  constructor
  · have := c8_decode_fallback_amended.1 sampleEnv [] "" (some "evt") "oops not json"
      [] initSt (by simp) (by decide)
    simpa [processEvents] using this
  · have := c8_decode_fallback_amended.2 (some "evt") "oops not json" [] (by simp)
      (by decide)
    simpa [runD2aEvents] using this

/-- C9: a non-list `messages` value yields a plain `400` with no stream
and no remote call, and a missing, non-string, empty, or whitespace-only
`statement` yields a plain `400` with no warehouse call. -/
theorem c9_bad_request_validation :
    (∀ (env : Env) (url : String) (m : Option Json) (u : String)
      (conn : Option PrimaryConn),
      (∀ l : List Json, m ≠ some (.arr l)) →
      agentRunHandler env (some url) m u conn =
        (.plain 400 (.obj [("error", .str "messages required")]), []))
    ∧ (∀ (env : StmtEnv) (url : String),
        statementsHandler env (some url) none =
          (.plain 400 (.obj [("error", .str "statement required")]), []))
    ∧ (∀ (env : StmtEnv) (url : String) (s : String), trimString s = "" →
        statementsHandler env (some url) (some (.str s)) =
          (.plain 400 (.obj [("error", .str "statement required")]), []))
    ∧ (∀ (env : StmtEnv) (url : String) (j : Json), (∀ s : String, j ≠ .str s) →
        statementsHandler env (some url) (some j) =
          (.plain 400 (.obj [("error", .str "statement required")]), [])) := by
  refine ⟨?_, fun env url => rfl, ?_, ?_⟩
  · intro env url m u conn hm
    cases m with
    | none => rfl
    | some j =>
      cases j with
      | arr l => exact absurd rfl (hm l)
      | null => rfl
      | bool b => rfl
      | num n => rfl
      | str s => rfl
      | obj fs => rfl
  · intro env url s hs
    simp [statementsHandler, hs]
  · intro env url j hj
    cases j with
    | str s => exact absurd rfl (hj s)
    | null => rfl
    | bool b => rfl
    | num n => rfl
    | arr l => rfl
    | obj fs => rfl

/-- C9 witness: the validation evaluated on a concrete string-valued
`messages` and a concrete whitespace-only `statement`. -/
theorem c9_witness :
    agentRunHandler sampleEnv (some "url") (some (.str "not a list")) "Alice" none =
      (.plain 400 (.obj [("error", .str "messages required")]), [])
    ∧ statementsHandler ⟨fun _ => none⟩ (some "url") (some (.str "   ")) =
      (.plain 400 (.obj [("error", .str "statement required")]), []) :=
  ⟨c9_bad_request_validation.1 sampleEnv "url" _ "Alice" none (by intro l; simp),
   c9_bad_request_validation.2.2.1 ⟨fun _ => none⟩ "url" "   " (by decide)⟩

/-- The frames of an SSE response (empty for a plain JSON response). -/
def sseFrames : HttpOut → List Frame
  | .plain _ _ => []
  | .sse _ fr => fr

/-- C5 counterexample: a SQL-triggering event is neither an execution
trace nor an empty-content delta, yet it never appears in the outbound
stream — the interception block replaces it and the (redacted) payload is
not forwarded, so no frame carries its event name. -/
theorem c5_counterexample :
    shouldSkipEvent sampleTrigger samplePayload = false
    ∧ (agentRunHandler sampleEnv (some "url") (some (.arr [])) "Bob"
        (some ⟨200, [sampleTrigger, sampleDone], false⟩)).1 =
      .sse 200 [⟨some "message.delta", .json (synthTextDelta (.str "explain"))⟩,
        ⟨some "table_result", .json (.obj [("statementHandle", .str "H1")])⟩,
        ⟨some "new_assistant_message", .json newAssistantMarker⟩,
        ⟨some "done", .sentinel⟩]
    ∧ ((sseFrames (agentRunHandler sampleEnv (some "url") (some (.arr [])) "Bob"
        (some ⟨200, [sampleTrigger, sampleDone], false⟩)).1).map Frame.name).contains
        (some "response.delta") = false :=
  ⟨rfl, rfl, rfl⟩

/-- C5 (amended): on a stream with no SQL trigger (and no accumulation
crash) the loop is exactly the drop-rules filter — trace events and
empty-content deltas are dropped, everything else is forwarded in order;
the secondary loop applies the identical rules; and on the primary stream
a SQL-triggering event is additionally consumed by interception. -/
theorem c5_drop_rules_amended :
    (∀ (env : Env) (m : List Json) (u : String) (evs : List SSEEvent) (st : LoopSt),
      (∀ e ∈ evs, tameEv e = true) →
      processEvents env m u evs st =
        ⟨forwardSpec evs ++
           (if containsDone evs && !st.sqlDetected then [doneFrame] else []),
         [], ⟨st.sqlDetected, st.acc ++ accumSpec evs⟩,
         if containsDone evs then .doneBreak else .streamEnd⟩)
    ∧ (∀ evs : List SSEEvent, runD2aEvents evs = forwardSpec evs)
    ∧ (∀ (e : SSEEvent) (rest : List SSEEvent), isDoneEv e = false →
        (shouldSkipEvent e (decodeData e.data) = true →
          forwardSpec (e :: rest) = forwardSpec rest)
        ∧ (shouldSkipEvent e (decodeData e.data) = false →
          forwardSpec (e :: rest) =
            writeSSE e.event (decodeData e.data) :: forwardSpec rest)) := by
  refine ⟨processEvents_tame, runD2aEvents_eq_forwardSpec, ?_⟩
  intro e rest hd
  obtain ⟨name, data⟩ := e
  cases data with
  | done => simp [isDoneEv] at hd
  | json j =>
    exact ⟨fun h => by simp [forwardSpec, h], fun h => by simp [forwardSpec, h]⟩
  | raw s =>
    exact ⟨fun h => by simp [forwardSpec, h], fun h => by simp [forwardSpec, h]⟩
  | empty =>
    exact ⟨fun h => by simp [forwardSpec, h], fun h => by simp [forwardSpec, h]⟩

/-- A concrete tame stream: a trace event, an empty-content delta, a
forwardable event and the sentinel. -/
def c5evs : List SSEEvent :=
  [⟨some "execution_trace", .json (.obj [])⟩,
   ⟨some "textev", .json (.obj [("delta", .obj [("content", .arr [])])])⟩,
   ⟨some "keep", .json (.obj [("k", .num 1)])⟩, sampleDone]

/-- C5 witness: the drop-rules characterization evaluated on the concrete
tame stream. -/
theorem c5_witness :
    processEvents sampleEnv [] "" c5evs initSt =
      ⟨forwardSpec c5evs ++
         (if containsDone c5evs && !initSt.sqlDetected then [doneFrame] else []),
       [], ⟨initSt.sqlDetected, initSt.acc ++ accumSpec c5evs⟩,
       if containsDone c5evs then .doneBreak else .streamEnd⟩ :=
  c5_drop_rules_amended.1 sampleEnv [] "" c5evs initSt (by decide)

/-- C7 counterexample: a SQL-triggering (Intercept-classified) event does
contribute its content items to the accumulated assistant content — on a
stream whose only non-sentinel event is the trigger, the secondary request
body is built from the trigger's two items with the original SQL (it is
serialized before the line-302 mutation), and the accumulator ends up with
the same two items, the `tool_results` one now carrying `sql: "REDACTED"`
through the mutated reference. -/
theorem c7_counterexample :
    isTrigger samplePayload = true
    ∧ (processEvents sampleEnv [] "Alice" [sampleTrigger, sampleDone] initSt).st.acc =
      [.obj [("type", .str "text"), ("text", .str "hello")],
       .obj [("type", .str "tool_results"),
          ("tool_results", .obj [("name", .str "analyst1"),
            ("content", .arr [
              .obj [("type", .str "json"),
                    ("json", .obj [("sql", .str "REDACTED"), ("text", .str "explain")])]])])]]
    ∧ (processEvents sampleEnv [] "Alice" [sampleTrigger, sampleDone] initSt).st.acc.length
      = 2
    ∧ (processEvents sampleEnv [] "Alice" [sampleTrigger, sampleDone] initSt).calls =
      [.submit (.str "SET TENANT = 'Alice' ->> SELECT 1"),
       .agentRunD2a (.obj [("messages", .arr [
         .obj [("role", .str "assistant"), ("content", .arr [
           .obj [("type", .str "text"), ("text", .str "hello")],
           .obj [("type", .str "tool_results"),
             ("tool_results", .obj [("name", .str "analyst1"),
               ("content", .arr [
                 .obj [("type", .str "json"),
                       ("json", .obj [("sql", .str "SELECT 1"),
                                      ("text", .str "explain")])]])])]])],
         .obj [("role", .str "user"), ("content", .arr [
           .obj [("type", .str "tool_results"),
             ("tool_results", .obj [("name", .str "sql_exec"),
               ("content", .arr [
                 .obj [("type", .str "json"),
                       ("json", .obj [("query_id", .str "H1")])]])])]])]])])] :=
  ⟨rfl, rfl, rfl, rfl⟩

/-- On runs where every remote call succeeds and no accumulation step
crashes, the accumulated assistant content is exactly the specification:
kept items of every processed (non-dropped) event in order — including
SQL-triggering events. -/
theorem acc_processEvents (env : Env) (m : List Json) (u : String)
    (hsub : ∀ s, (env.submitResp s).isSome = true)
    (hsel : ∀ s r, env.submitResp s = some r → ∃ h, selectHandle r = .ok h)
    (hd2a : ∀ b, (env.d2a b).isSome = true) :
    ∀ (evs : List SSEEvent) (st : LoopSt), (∀ e ∈ evs, accumOk e = true) →
    (processEvents env m u evs st).st.acc = st.acc ++ accumSpec evs := by
  intro evs
  induction evs with
  | nil => intro st _; simp [processEvents, accumSpec]
  | cons e rest ih =>
    intro st h
    have he : accumOk e = true := h e (by simp)
    have hrest : ∀ x ∈ rest, accumOk x = true := fun x hx => h x (by simp [hx])
    obtain ⟨name, data⟩ := e
    have hacc : ∃ l, accumulateItems (decodeData data) = .ok l := by
      simp only [accumOk] at he
      cases hA : accumulateItems (decodeData data) with
      | ok l => exact ⟨l, rfl⟩
      | error a => rw [hA] at he; simp at he
    obtain ⟨l, hl⟩ := hacc
    cases data with
    | done => simp [processEvents, accumSpec]
    | json j =>
      by_cases hskip : shouldSkipEvent ⟨name, .json j⟩ (decodeData (.json j)) = true
      · simp [processEvents, hskip, accumSpec, ih _ hrest]
      · simp only [Bool.not_eq_true] at hskip
        by_cases htrig : isTrigger (decodeData (.json j)) = true
        · cases hS : env.submitResp
              (submittedStatement u ((sqlOf (decodeData (.json j))).getD .null)) with
          | none =>
            have := hsub (submittedStatement u ((sqlOf (decodeData (.json j))).getD .null))
            rw [hS] at this
            simp at this
          | some stmtJson =>
            obtain ⟨hdl, hSel⟩ := hsel _ _ hS
            cases hD : env.d2a (d2aRequestBody env.config m (st.acc ++ l) hdl) with
            | none =>
              have := hd2a (d2aRequestBody env.config m (st.acc ++ l) hdl)
              rw [hD] at this
              simp at this
            | some evs' =>
              simp [processEvents, hskip, hl, htrig, hS, hSel, hD, accumSpec,
                ih _ hrest, Except.toOption, List.append_assoc]
        · simp only [Bool.not_eq_true] at htrig
          simp [processEvents, hskip, hl, htrig, accumSpec, ih _ hrest,
            Except.toOption, List.append_assoc]
    | raw s =>
      have htrig : isTrigger (decodeData (.raw s)) = false := rfl
      by_cases hskip : shouldSkipEvent ⟨name, .raw s⟩ (decodeData (.raw s)) = true
      · simp [processEvents, hskip, accumSpec, ih _ hrest]
      · simp only [Bool.not_eq_true] at hskip
        simp [processEvents, hskip, hl, htrig, accumSpec, ih _ hrest,
          Except.toOption, List.append_assoc]
    | empty =>
      have htrig : isTrigger (decodeData .empty) = false := rfl
      by_cases hskip : shouldSkipEvent ⟨name, .empty⟩ (decodeData .empty) = true
      · simp [processEvents, hskip, accumSpec, ih _ hrest]
      · simp only [Bool.not_eq_true] at hskip
        simp [processEvents, hskip, hl, htrig, accumSpec, ih _ hrest,
          Except.toOption, List.append_assoc]

/-- C7 (amended): content items are appended for every processed
(non-dropped) event — Forward *and* Intercept classified — in order,
keeping exactly the items that are not `sql_exec` tool invocations;
dropped events contribute nothing.  Because the pushed items are
references, the line-302 mutation rewrites an intercepted event's
accumulated `tool_results` item to `sql: "REDACTED"` after the secondary
request (which still carries the original SQL) has been serialized. -/
theorem c7_accumulation_amended :
    (∀ (env : Env) (m : List Json) (u : String),
      (∀ s, (env.submitResp s).isSome = true) →
      (∀ s r, env.submitResp s = some r → ∃ h, selectHandle r = .ok h) →
      (∀ b, (env.d2a b).isSome = true) →
      ∀ (evs : List SSEEvent) (st : LoopSt), (∀ e ∈ evs, accumOk e = true) →
      (processEvents env m u evs st).st.acc = st.acc ++ accumSpec evs)
    ∧ (∀ (p : Json) (c : List Json),
        (p.get? "delta").bind (·.get? "content") = some (.arr c) →
        accumulateItems p = .ok (c.filter keepContentItem))
    ∧ (∀ (e : SSEEvent) (rest : List SSEEvent), isDoneEv e = false →
        shouldSkipEvent e (decodeData e.data) = true →
        accumSpec (e :: rest) = accumSpec rest)
    ∧ (∀ (env : Env) (m : List Json) (u : String) (name : Option String)
        (p sqlv trj stmtJson : Json) (hdl : Option Json) (l : List Json)
        (evs' rest : List SSEEvent) (st : LoopSt),
        shouldSkipEvent ⟨name, .json p⟩ p = false →
        accumulateItems p = .ok l →
        sqlOf p = some sqlv → sqlv.truthy = true →
        extractSQLFromPayload p = some trj →
        env.submitResp (submittedStatement u sqlv) = some stmtJson →
        selectHandle stmtJson = .ok hdl →
        env.d2a (d2aRequestBody env.config m (st.acc ++ l) hdl) = some evs' →
        (processEvents env m u (⟨name, .json p⟩ :: rest) st).st =
          (processEvents env m u rest ⟨true, st.acc ++ redactedItems p⟩).st
        ∧ (processEvents env m u (⟨name, .json p⟩ :: rest) st).calls =
          .submit (submittedStatement u sqlv) ::
            .agentRunD2a (d2aRequestBody env.config m (st.acc ++ l) hdl) ::
            (processEvents env m u rest ⟨true, st.acc ++ redactedItems p⟩).calls) := by
  refine ⟨acc_processEvents, ?_, ?_, ?_⟩
  · intro p c h
    simp [accumulateItems, h, Json.truthy]
  · intro e rest hd hskip
    obtain ⟨name, data⟩ := e
    cases data with
    | done => simp [isDoneEv] at hd
    | json j => simp [accumSpec, hskip]
    | raw s => simp [accumSpec, hskip]
    | empty => simp [accumSpec, hskip]
  · intro env m u name p sqlv trj stmtJson hdl l evs' rest st
      hskip hacc hsql htr hex hsub hsel hd2a
    rw [processEvents_trigger_step env m u name p sqlv trj stmtJson hdl l evs' rest st
      hskip hacc hsql htr hex hsub hsel hd2a]
    exact ⟨rfl, rfl⟩

/-- C7 witness: the accumulation characterization evaluated on the
concrete trigger stream against the healthy environment. -/
theorem c7_witness :
    (processEvents sampleEnv [] "Alice" [sampleTrigger, sampleDone] initSt).st.acc =
      initSt.acc ++ accumSpec [sampleTrigger, sampleDone] :=
  c7_accumulation_amended.1 sampleEnv [] "Alice" (fun _ => rfl)
    (fun s r h => by
      simp [sampleEnv] at h
      subst h
      exact ⟨some (.str "H1"), rfl⟩)
    (fun _ => rfl) [sampleTrigger, sampleDone] initSt (by decide)

/-- C10 counterexample: a statement-submission response whose non-empty
`statementHandles` array ends in a falsy handle (the empty string) does
*not* pass that last element as `query_id` — the `||` fallback substitutes
the single `statementHandle` field (`"B"`), as the secondary request body
of the concrete run shows. -/
theorem c10_counterexample :
    selectHandle (.obj [("statementHandles", .arr [.str "A", .str ""]),
      ("statementHandle", .str "B")]) = .ok (some (.str "B"))
    ∧ (Json.str "B" ≠ .str "")
    ∧ (processEvents envC10 [] "" [sampleTrigger, sampleDone] initSt).calls =
      [.submit (.str "SELECT 1"),
       .agentRunD2a (.obj [("messages", .arr [
         .obj [("role", .str "assistant"), ("content", .arr [
           .obj [("type", .str "text"), ("text", .str "hello")],
           .obj [("type", .str "tool_results"),
             ("tool_results", .obj [("name", .str "analyst1"),
               ("content", .arr [
                 .obj [("type", .str "json"),
                       ("json", .obj [("sql", .str "SELECT 1"),
                                      ("text", .str "explain")])]])])]])],
         .obj [("role", .str "user"), ("content", .arr [
           .obj [("type", .str "tool_results"),
             ("tool_results", .obj [("name", .str "sql_exec"),
               ("content", .arr [
                 .obj [("type", .str "json"),
                       ("json", .obj [("query_id", .str "B")])]])])]])]])])] :=
  ⟨rfl, by simp, rfl⟩

/-- C10 (amended): the handle passed as `query_id` is the last element of
a non-empty `statementHandles` array only when that element is truthy; a
falsy last element, an empty or absent array, falls back to the single
`statementHandle` field (possibly absent, in which case `query_id` is
omitted from the synthesized message and the secondary request is still
issued). -/
theorem c10_handle_selection_amended :
    (∀ (r : Json) (l : List Json) (v : Json),
      r.get? "statementHandles" = some (.arr l) → l.getLast? = some v →
      v.truthy = true → selectHandle r = .ok (some v))
    ∧ (∀ (r : Json) (l : List Json) (v : Json),
      r.get? "statementHandles" = some (.arr l) → l.getLast? = some v →
      v.truthy = false → selectHandle r = .ok (r.get? "statementHandle"))
    ∧ (∀ r : Json, r.get? "statementHandles" = none →
        selectHandle r = .ok (r.get? "statementHandle"))
    ∧ sqlExecMessage none =
      .obj [("role", .str "user"),
            ("content", .arr [
              .obj [("type", .str "tool_results"),
                    ("tool_results", .obj [
                      ("name", .str "sql_exec"),
                      ("content", .arr [
                        .obj [("type", .str "json"), ("json", .obj [])]])])]])]
    ∧ (∀ (env : Env) (m : List Json) (u : String) (name : Option String)
        (p sqlv trj stmtJson : Json) (hdl : Option Json) (l : List Json)
        (evs' rest : List SSEEvent) (st : LoopSt),
        shouldSkipEvent ⟨name, .json p⟩ p = false →
        accumulateItems p = .ok l →
        sqlOf p = some sqlv → sqlv.truthy = true →
        extractSQLFromPayload p = some trj →
        env.submitResp (submittedStatement u sqlv) = some stmtJson →
        selectHandle stmtJson = .ok hdl →
        env.d2a (d2aRequestBody env.config m (st.acc ++ l) hdl) = some evs' →
        (processEvents env m u (⟨name, .json p⟩ :: rest) st).calls =
          .submit (submittedStatement u sqlv) ::
            .agentRunD2a (d2aRequestBody env.config m (st.acc ++ l) hdl) ::
            (processEvents env m u rest ⟨true, st.acc ++ redactedItems p⟩).calls) := by
  refine ⟨?_, ?_, ?_, rfl, ?_⟩
  · intro r l v h1 h2 h3
    simp [selectHandle, atLastChain, h1, h2, h3, Except.map]
  · intro r l v h1 h2 h3
    simp [selectHandle, atLastChain, h1, h2, h3, Except.map]
  · intro r h1
    simp [selectHandle, atLastChain, h1, Except.map]
  · intro env m u name p sqlv trj stmtJson hdl l evs' rest st
      hskip hacc hsql htr hex hsub hsel hd2a
    rw [processEvents_trigger_step env m u name p sqlv trj stmtJson hdl l evs' rest st
      hskip hacc hsql htr hex hsub hsel hd2a]

/-- C10 witness: handle selection evaluated on a concrete truthy-last
response and on the concrete falsy-last response of the counterexample
environment. -/
theorem c10_witness :
    selectHandle (.obj [("statementHandles", .arr [.str "X"])]) = .ok (some (.str "X"))
    ∧ selectHandle (.obj [("statementHandles", .arr [.str "A", .str ""]),
        ("statementHandle", .str "B")]) =
      .ok ((Json.obj [("statementHandles", .arr [.str "A", .str ""]),
        ("statementHandle", .str "B")]).get? "statementHandle") :=
  ⟨c10_handle_selection_amended.1 _ [.str "X"] (.str "X") rfl rfl rfl,
   c10_handle_selection_amended.2.1 _ [.str "A", .str ""] (.str "") rfl rfl rfl⟩

/-- C3 counterexample: on a concrete single-trigger run the outbound
sequence is `message.delta`, `table_result`, `new_assistant_message`,
then `done` — the redacted shell of the triggering payload is *not*
forwarded anywhere (no frame carries the triggering event's name), and the
secondary-stream frames come before nothing else intervenes. -/
theorem c3_counterexample :
    (agentRunHandler sampleEnv (some "url") (some (.arr [])) "Alice"
        (some ⟨200, [sampleTrigger, sampleDone], false⟩)).1 =
      .sse 200 [⟨some "message.delta", .json (synthTextDelta (.str "explain"))⟩,
        ⟨some "table_result", .json (.obj [("statementHandle", .str "H1")])⟩,
        ⟨some "new_assistant_message", .json newAssistantMarker⟩,
        ⟨some "done", .sentinel⟩]
    ∧ (sseFrames (agentRunHandler sampleEnv (some "url") (some (.arr [])) "Alice"
        (some ⟨200, [sampleTrigger, sampleDone], false⟩)).1).length = 4
    ∧ ((sseFrames (agentRunHandler sampleEnv (some "url") (some (.arr [])) "Alice"
        (some ⟨200, [sampleTrigger, sampleDone], false⟩)).1).map Frame.name).contains
        (some "response.delta") = false :=
  ⟨rfl, rfl, rfl⟩

/-- C3 (amended): when SQL is detected on an otherwise tame primary
stream, the outbound stream is exactly: the forwarded prefix, then
[optional `message.delta` with the analyst text] → `table_result` →
`new_assistant_message` → [all secondary-stream forwarded events in
order], then the remaining primary forwards, then the single `done` —
with the triggering payload itself never forwarded (the line-302 redaction
only rewrites the accumulated copy of its content items). -/
theorem c3_intercept_ordering_amended
    (env : Env) (url : String) (msgs : List Json) (u : String) (status : Nat)
    (pre post : List SSEEvent) (name : Option String)
    (p sqlv trj stmtJson : Json) (hdl : Option Json) (l : List Json)
    (evs' : List SSEEvent)
    (hpre : ∀ e ∈ pre, tameEv e = true) (hpred : containsDone pre = false)
    (hskip : shouldSkipEvent ⟨name, .json p⟩ p = false)
    (hacc : accumulateItems p = .ok l)
    (hsql : sqlOf p = some sqlv) (htr : sqlv.truthy = true)
    (hex : extractSQLFromPayload p = some trj)
    (hsub : env.submitResp (submittedStatement u sqlv) = some stmtJson)
    (hsel : selectHandle stmtJson = .ok hdl)
    (hd2a : env.d2a (d2aRequestBody env.config msgs (accumSpec pre ++ l) hdl) = some evs')
    (hpost : ∀ e ∈ post, tameEv e = true) :
    (agentRunHandler env (some url) (some (.arr msgs)) u
      (some ⟨status, pre ++ ⟨name, .json p⟩ :: post, false⟩)).1 =
      .sse status (forwardSpec pre ++ interceptBlock trj stmtJson ++
        runD2aEvents evs' ++ forwardSpec post ++ [doneFrame]) := by
  have happ := processEvents_append_tame env msgs u pre (⟨name, .json p⟩ :: post)
    initSt hpre hpred
  have hstep := processEvents_trigger_step env msgs u name p sqlv trj stmtJson hdl l
    evs' post ⟨false, accumSpec pre⟩ hskip hacc hsql htr hex hsub hsel hd2a
  have htame := processEvents_tame env msgs u post
    ⟨true, accumSpec pre ++ redactedItems p⟩ hpost
  simp only [agentRunHandler]
  simp only [initSt, List.nil_append] at happ hstep htame ⊢
  cases hcd : containsDone post with
  | true => simp only [happ, hstep, htame, hcd]; simp [List.append_assoc]
  | false => simp only [happ, hstep, htame, hcd]; simp [List.append_assoc]

/-- C3 witness: the amended interception ordering evaluated on the
concrete trigger stream (empty prefix, sentinel suffix, empty secondary
stream). -/
theorem c3_witness :
    (agentRunHandler sampleEnv (some "url") (some (.arr [])) "Alice"
      (some ⟨200, [] ++ ⟨some "response.delta", .json samplePayload⟩ :: [sampleDone],
        false⟩)).1 =
      .sse 200 (forwardSpec [] ++
        interceptBlock (.obj [("sql", .str "SELECT 1"), ("text", .str "explain")])
          (.obj [("statementHandle", .str "H1")]) ++
        runD2aEvents [] ++ forwardSpec [sampleDone] ++ [doneFrame]) :=
  c3_intercept_ordering_amended sampleEnv "url" [] "Alice" 200 [] [sampleDone]
    (some "response.delta") samplePayload (.str "SELECT 1")
    (.obj [("sql", .str "SELECT 1"), ("text", .str "explain")])
    (.obj [("statementHandle", .str "H1")]) (some (.str "H1"))
    [.obj [("type", .str "text"), ("text", .str "hello")],
     .obj [("type", .str "tool_results"),
        ("tool_results", .obj [("name", .str "analyst1"),
          ("content", .arr [
            .obj [("type", .str "json"),
                  ("json", .obj [("sql", .str "SELECT 1"), ("text", .str "explain")])]])])]]
    [] (by simp) rfl rfl rfl rfl rfl rfl rfl rfl rfl (by decide)

/-- Every remote call in a full `/api/agent/run` request is the primary
agent call, a statement submission, or a secondary agent call. -/
theorem mem_handler_calls (env : Env) (url : String) (msgs : List Json) (u : String)
    (conn : Option PrimaryConn) (c' : Call)
    (hmem : c' ∈ (agentRunHandler env (some url) (some (.arr msgs)) u conn).2) :
    c' = .agentRunPrimary (createAgentRequestBody env.config msgs) ∨
      ∃ c, conn = some c ∧
        c' ∈ (processEvents env msgs u c.events initSt).calls := by
  cases conn with
  | none =>
    simp [agentRunHandler] at hmem
    exact Or.inl hmem
  | some c =>
    simp only [agentRunHandler] at hmem
    cases hE : (processEvents env msgs u c.events initSt).ending with
    | doneBreak =>
      rw [hE] at hmem
      simp only [List.mem_cons] at hmem
      rcases hmem with h | h
      · exact Or.inl h
      · exact Or.inr ⟨c, rfl, h⟩
    | streamEnd =>
      rw [hE] at hmem
      by_cases hf : c.failsAtEnd = true
      · by_cases he : (processEvents env msgs u c.events initSt).frames.isEmpty = true
        · simp only [hf, he, if_true] at hmem
          simp only [List.mem_cons] at hmem
          rcases hmem with h | h
          · exact Or.inl h
          · exact Or.inr ⟨c, rfl, h⟩
        · simp only [Bool.not_eq_true] at he
          simp only [hf, he, if_true, Bool.false_eq_true, if_false] at hmem
          simp only [List.mem_cons] at hmem
          rcases hmem with h | h
          · exact Or.inl h
          · exact Or.inr ⟨c, rfl, h⟩
      · simp only [Bool.not_eq_true] at hf
        simp only [hf, Bool.false_eq_true, if_false] at hmem
        simp only [List.mem_cons] at hmem
        rcases hmem with h | h
        · exact Or.inl h
        · exact Or.inr ⟨c, rfl, h⟩
    | crashed =>
      rw [hE] at hmem
      by_cases he : (processEvents env msgs u c.events initSt).frames.isEmpty = true
      · simp only [he, if_true] at hmem
        simp only [List.mem_cons] at hmem
        rcases hmem with h | h
        · exact Or.inl h
        · exact Or.inr ⟨c, rfl, h⟩
      · simp only [Bool.not_eq_true] at he
        simp only [he, Bool.false_eq_true, if_false] at hmem
        simp only [List.mem_cons] at hmem
        rcases hmem with h | h
        · exact Or.inl h
        · exact Or.inr ⟨c, rfl, h⟩

/-- C4 counterexample: on a concrete intercepted run against a warehouse
whose submission and fetch responses are observably different, the
`table_result` payload is the raw submission response, the result-fetch
endpoint is never called, and the call trace is exactly the primary agent
call, one submission, and one secondary agent call. -/
theorem c4_counterexample :
    (agentRunHandler envC4 (some "url") (some (.arr [])) ""
        (some ⟨200, [sampleTrigger, sampleDone], false⟩)).1 =
      .sse 200 [⟨some "message.delta", .json (synthTextDelta (.str "explain"))⟩,
        ⟨some "table_result", .json (.obj [("source", .str "submission")])⟩,
        ⟨some "new_assistant_message", .json newAssistantMarker⟩,
        ⟨some "done", .sentinel⟩]
    ∧ envC4.fetchResp (.str "H1") = some (.obj [("source", .str "fetch")])
    ∧ (Json.obj [("source", .str "submission")] ≠ .obj [("source", .str "fetch")])
    ∧ (agentRunHandler envC4 (some "url") (some (.arr [])) ""
        (some ⟨200, [sampleTrigger, sampleDone], false⟩)).2 =
      [.agentRunPrimary (.obj [("messages", .arr [])]),
       .submit (.str "SELECT 1"),
       .agentRunD2a (.obj [("messages", .arr [
         .obj [("role", .str "assistant"), ("content", .arr [
           .obj [("type", .str "text"), ("text", .str "hello")],
           .obj [("type", .str "tool_results"),
             ("tool_results", .obj [("name", .str "analyst1"),
               ("content", .arr [
                 .obj [("type", .str "json"),
                       ("json", .obj [("sql", .str "SELECT 1"),
                                      ("text", .str "explain")])]])])]])],
         .obj [("role", .str "user"), ("content", .arr [
           .obj [("type", .str "tool_results"),
             ("tool_results", .obj [("name", .str "sql_exec"),
               ("content", .arr [
                 .obj [("type", .str "json"), ("json", .obj [])]])])]])]])])] :=
  ⟨rfl, rfl, by simp, rfl⟩

/-- C4 (amended): the interception path issues only the statement
submission (plus the secondary agent call) — the result-fetch endpoint is
never called anywhere in the request — and the payload emitted under
`table_result` is the raw submission response; the fetch helper exists but
is dead code in this route. -/
theorem c4_execution_amended :
    (∀ (env : Env) (m : List Json) (u : String) (evs : List SSEEvent) (st : LoopSt)
      (h : Json), Call.statementsGet h ∉ (processEvents env m u evs st).calls)
    ∧ (∀ (env : Env) (url : String) (msgs : List Json) (u : String)
        (conn : Option PrimaryConn) (h : Json),
        Call.statementsGet h ∉
          (agentRunHandler env (some url) (some (.arr msgs)) u conn).2)
    ∧ (∀ (env : Env) (u : String) (sql : Json), executeSQL env u sql =
        (env.submitResp (submittedStatement u sql), [.submit (submittedStatement u sql)]))
    ∧ (∀ (env : Env) (h : Json), getSQLResults env h = (env.fetchResp h, [.statementsGet h]))
    ∧ (∀ (env : Env) (m : List Json) (u : String) (name : Option String)
        (p sqlv trj stmtJson : Json) (hdl : Option Json) (l : List Json)
        (evs' rest : List SSEEvent) (st : LoopSt),
        shouldSkipEvent ⟨name, .json p⟩ p = false →
        accumulateItems p = .ok l →
        sqlOf p = some sqlv → sqlv.truthy = true →
        extractSQLFromPayload p = some trj →
        env.submitResp (submittedStatement u sqlv) = some stmtJson →
        selectHandle stmtJson = .ok hdl →
        env.d2a (d2aRequestBody env.config m (st.acc ++ l) hdl) = some evs' →
        (processEvents env m u (⟨name, .json p⟩ :: rest) st).frames =
          interceptBlock trj stmtJson ++ runD2aEvents evs' ++
            (processEvents env m u rest ⟨true, st.acc ++ redactedItems p⟩).frames) := by
  have h1 : ∀ (env : Env) (m : List Json) (u : String) (evs : List SSEEvent)
      (st : LoopSt) (h : Json),
      Call.statementsGet h ∉ (processEvents env m u evs st).calls := by
    intro env m u evs st h hmem
    rcases calls_processEvents_shape env m u evs st _ hmem with ⟨v, hv⟩ | ⟨b, hb⟩
    · simp at hv
    · simp at hb
  refine ⟨h1, ?_, fun env u sql => rfl, fun env h => rfl, ?_⟩
  · intro env url msgs u conn h hmem
    rcases mem_handler_calls env url msgs u conn _ hmem with hc | ⟨c, -, hc⟩
    · simp at hc
    · exact h1 env msgs u c.events initSt h hc
  · intro env m u name p sqlv trj stmtJson hdl l evs' rest st
      hskip hacc hsql htr hex hsub hsel hd2a
    rw [processEvents_trigger_step env m u name p sqlv trj stmtJson hdl l evs' rest st
      hskip hacc hsql htr hex hsub hsel hd2a]

/-- C4 witness: no result-fetch call in the concrete run, and the
interception frames of the concrete trigger step. -/
theorem c4_witness :
    Call.statementsGet (.str "H1") ∉
      (agentRunHandler envC4 (some "url") (some (.arr [])) ""
        (some ⟨200, [sampleTrigger, sampleDone], false⟩)).2
    ∧ (processEvents envC4 [] "" [sampleTrigger, sampleDone] initSt).frames =
      interceptBlock (.obj [("sql", .str "SELECT 1"), ("text", .str "explain")])
          (.obj [("source", .str "submission")]) ++
        runD2aEvents [] ++
        (processEvents envC4 [] "" [sampleDone]
          ⟨true, [] ++ redactedItems samplePayload⟩).frames :=
  ⟨c4_execution_amended.2.1 envC4 "url" [] ""
      (some ⟨200, [sampleTrigger, sampleDone], false⟩) (.str "H1"),
   c4_execution_amended.2.2.2.2 envC4 [] "" (some "response.delta")
      samplePayload (.str "SELECT 1")
      (.obj [("sql", .str "SELECT 1"), ("text", .str "explain")])
      (.obj [("source", .str "submission")]) none
      [.obj [("type", .str "text"), ("text", .str "hello")],
       .obj [("type", .str "tool_results"),
         ("tool_results", .obj [("name", .str "analyst1"),
           ("content", .arr [
             .obj [("type", .str "json"),
                   ("json", .obj [("sql", .str "SELECT 1"), ("text", .str "explain")])]])])]]
      [] [sampleDone] initSt rfl rfl rfl rfl rfl rfl rfl rfl⟩

/-- The number of terminal-class frames the handler actually writes, as a
function of how the primary loop ended: one after a sentinel break; on a
clean stream end only the post-loop `done` when SQL was detected; after a
dropped connection or crash, one `error` frame when something had already
been written and a plain non-stream `500` (zero frames) otherwise. -/
def expectedTerminals (r : RunOut) (failsAtEnd : Bool) : Nat :=
  match r.ending, failsAtEnd with
  | .doneBreak, _ => 1
  | .streamEnd, false => if r.st.sqlDetected then 1 else 0
  | .streamEnd, true => if r.frames.isEmpty then 0 else 1
  | .crashed, _ => if r.frames.isEmpty then 0 else 1

/-- C1 counterexample: an upstream stream that ends cleanly *without* its
`[DONE]` sentinel and with no SQL detected produces an outbound SSE stream
with zero terminal-class events — not exactly one. -/
theorem c1_counterexample :
    (agentRunHandler sampleEnv (some "url") (some (.arr [])) ""
      (some ⟨200, [], false⟩)).1 = .sse 200 []
    ∧ terminalCount (agentRunHandler sampleEnv (some "url") (some (.arr [])) ""
      (some ⟨200, [], false⟩)).1 = 0 :=
  ⟨rfl, rfl⟩

/-- C1 (amended): provided no upstream event spoofs a terminal frame (none
is named `error`, none decodes to the JS string `"[DONE]"`, on either
stream, and the submission response is not that string), the outbound
stream carries at most one terminal-class frame — and exactly
`expectedTerminals` many: one whenever the primary stream reaches its
sentinel, or ends cleanly after SQL was detected, or fails after the first
outbound write; zero when it ends cleanly with no sentinel and no SQL, or
fails before anything was written (a plain `500` instead). -/
theorem c1_terminal_characterization
    (env : Env) (url : String) (msgs : List Json) (u : String) (c : PrimaryConn)
    (hsub : ∀ s r, env.submitResp s = some r → spoofValue r = false)
    (hd2a : ∀ b evs', env.d2a b = some evs' → ∀ e ∈ evs', noSpoof e = true)
    (hp : ∀ e ∈ c.events, noSpoof e = true) :
    terminalCount (agentRunHandler env (some url) (some (.arr msgs)) u (some c)).1 =
      expectedTerminals (processEvents env msgs u c.events initSt) c.failsAtEnd
    ∧ terminalCount (agentRunHandler env (some url) (some (.arr msgs)) u (some c)).1
      ≤ 1 := by
  obtain ⟨cs, cev, cf⟩ := c
  have ht := terminals_processEvents env msgs u hsub hd2a cev initSt hp
  have heq : terminalCount
      (agentRunHandler env (some url) (some (.arr msgs)) u (some ⟨cs, cev, cf⟩)).1 =
      expectedTerminals (processEvents env msgs u cev initSt) cf := by
    simp only [agentRunHandler, expectedTerminals]
    cases hE : (processEvents env msgs u cev initSt).ending with
    | doneBreak =>
      rw [hE] at ht
      simp only [true_and] at ht
      by_cases hq : (processEvents env msgs u cev initSt).st.sqlDetected = true
      · simp only [hq, Bool.true_eq_false, if_false] at ht
        simp [terminalCount, List.filter_append, ht, hq, doneFrame_terminal]
      · simp only [Bool.not_eq_true] at hq
        simp only [hq, if_true] at ht
        simp [terminalCount, List.filter_append, ht, hq, doneFrame_terminal]
    | streamEnd =>
      rw [hE] at ht
      simp only [reduceCtorEq, false_and, if_false] at ht
      cases cf with
      | false =>
        by_cases hq : (processEvents env msgs u cev initSt).st.sqlDetected = true
        · simp [terminalCount, List.filter_append, ht, hq, doneFrame_terminal]
        · simp only [Bool.not_eq_true] at hq
          simp [terminalCount, List.filter_append, ht, hq]
      | true =>
        by_cases he : (processEvents env msgs u cev initSt).frames.isEmpty = true
        · simp [terminalCount, he]
        · simp only [Bool.not_eq_true] at he
          simp [terminalCount, List.filter_append, ht, he, errorFrame_terminal]
    | crashed =>
      rw [hE] at ht
      simp only [reduceCtorEq, false_and, if_false] at ht
      by_cases he : (processEvents env msgs u cev initSt).frames.isEmpty = true
      · simp [terminalCount, he]
      · simp only [Bool.not_eq_true] at he
        simp [terminalCount, List.filter_append, ht, he, errorFrame_terminal]
  refine ⟨heq, heq ▸ ?_⟩
  unfold expectedTerminals
  split <;> first
    | omega
    | (split <;> omega)

/-- C1 witness: the characterization evaluated on a concrete sentinel-only
stream against the healthy environment (exactly one terminal frame). -/
theorem c1_witness :
    terminalCount (agentRunHandler sampleEnv (some "url") (some (.arr [])) ""
      (some ⟨200, [sampleDone], false⟩)).1 =
      expectedTerminals (processEvents sampleEnv [] "" [sampleDone] initSt) false
    ∧ terminalCount (agentRunHandler sampleEnv (some "url") (some (.arr [])) ""
      (some ⟨200, [sampleDone], false⟩)).1 ≤ 1 :=
  c1_terminal_characterization sampleEnv "url" [] "" ⟨200, [sampleDone], false⟩
    (fun s r h => by
      simp [sampleEnv] at h
      subst h
      rfl)
    (fun b evs' h => by
      simp [sampleEnv] at h
      subst h
      intro e he
      simp at he)
    (by decide)
